import Mathlib

/-!
# Plantwatch: nRF24L01 radio driver over the SPI1 transport

A shallow embedding of `Remote/Drivers/Src/spi.c` and
`Remote/Drivers/Src/nrf24l01.c`.

* Bytes and machine words are natural numbers; a store into a `char` is taken
  modulo 256 and 32-bit arithmetic modulo 2^32 wherever it can wrap.
* The hardware and the scheduler are an explicit `Machine`: the registers the
  drivers touch, the pending-owner slot `xCommTask`, and a log of every
  hardware-visible action in program order.
* What the environment answers (register reads, task notifications) is a finite
  script held in the machine. A run that needs an answer the script does not
  hold ends as `Outcome.blocked`: the busy-wait is still spinning, the task is
  still suspended.
* A failed `configASSERT` ends the run as `Outcome.halt`.
-/

set_option linter.unusedVariables false

namespace Plantwatch

/-! ## Constants -/

/-- Constants of headers that are not part of the sources (`tpm.h`, `spi.h`,
`MKL25Z4.h`, `FreeRTOSConfig.h`); every definition takes them as a parameter. -/
structure Board where
  /-- Timer ticks reserved per transferred byte. -/
  TIME_PER_BYTE : Nat
  /-- Timer ticks of the minimum chip-enable pulse. -/
  TEN_MICROSECONDS : Nat
  /-- Position of the receive-buffer-full flag in `SPI1->S`. -/
  SPI_S_SPRF_SHIFT : Nat
  /-- Width of the receive-buffer-full flag. -/
  SPI_S_SPRF_WIDTH : Nat
  /-- Position of the transmit-buffer-empty flag in `SPI1->S`. -/
  SPI_S_SPTEF_SHIFT : Nat
  /-- Width of the transmit-buffer-empty flag. -/
  SPI_S_SPTEF_WIDTH : Nat
  /-- Value of `pdMS_TO_TICKS(200)`. -/
  xMaxBlockTime : Nat
  deriving DecidableEq, Repr

/-- One concrete choice of the header constants, used to evaluate the model:
flag positions of the KL25 SPI status register, 96 ticks per byte, 480 ticks
for ten microseconds. -/
def kl25 : Board :=
  { TIME_PER_BYTE := 96, TEN_MICROSECONDS := 480,
    SPI_S_SPRF_SHIFT := 7, SPI_S_SPRF_WIDTH := 1,
    SPI_S_SPTEF_SHIFT := 5, SPI_S_SPTEF_WIDTH := 1,
    xMaxBlockTime := 200 }

/-- Modelled from the spec: the macro `LOW` is declared in a header that is not
part of the sources; `SPI1_vSetSlave` subtracts it from the address of the
clear register and documents the result for 0 as the clear register. -/
def LOW : Nat := 0

/-- Modelled from the spec: the macro `HIGH` is declared in a header that is not
part of the sources; `SPI1_vSetSlave` documents that subtracting it (one word)
from the address of the clear register yields the set register. -/
def HIGH : Nat := 1

/-- Number of values of a `uint32_t`. -/
def UINT32 : Nat := 4294967296

def COMM_TASK_NOTIFICATION : Nat := 1
def BYTE_OFFSET : Nat := 1

/-- Pin of the chip-enable line on port A. -/
def CE : Nat := 1
/-- Pin of the interrupt-request line on port A. -/
def IRQ : Nat := 2

def RXTX_ADDR_LEN : Nat := 5
def MAX_PAYLOAD_LEN : Nat := 32
def ADDR_40BIT_LEN : Nat := 6

def W_REGISTER : Nat := 0x20
def W_TX_PAYLOAD : Nat := 0xA0
def FLUSH_TX : Nat := 0xE1
def FLUSH_RX : Nat := 0xE2

def CONFIG : Nat := 0x00
def EN_AA : Nat := 0x01
def EN_RXADDR : Nat := 0x02
def SETUP_RETR : Nat := 0x04
def RF_CH : Nat := 0x05
def STATUS : Nat := 0x07
def RX_ADDR_P0 : Nat := 0x0A
def TX_ADDR : Nat := 0x10
def RX_PW_P0 : Nat := 0x11

/-- The shape shared by all register-bit macros:
`(((uint8_t)(((uint8_t)(x)) << s)) & mask)`. -/
def bitField (x s mask : Nat) : Nat := (((x % 256) <<< s) % 256) &&& mask

def CONFIG_EN_CRC (x : Nat) : Nat := bitField x 3 0x08
def CONFIG_CRCO (x : Nat) : Nat := bitField x 2 0x04
def CONFIG_PWR_UP (x : Nat) : Nat := bitField x 1 0x02
def EN_AA_ENAA_P0 (x : Nat) : Nat := bitField x 0 0x01
def EN_RXADDR_ERX_P0 (x : Nat) : Nat := bitField x 0 0x01
def SETUP_RETR_ARD (x : Nat) : Nat := bitField x 4 0xF0
def SETUP_RETR_ARC (x : Nat) : Nat := bitField x 0 0x0F
def STATUS_RX_DR (x : Nat) : Nat := bitField x 6 0x40
def STATUS_TX_DS (x : Nat) : Nat := bitField x 5 0x20
def STATUS_MAX_RT (x : Nat) : Nat := bitField x 4 0x10
def RF_CH_MHZ (x : Nat) : Nat := bitField x 0 0x7F
def RX_PW_PX (x : Nat) : Nat := bitField x 0 0x3F

/-! ## Machine -/

/-- Addresses handed to the DMA engine. -/
inductive Addr where
  /-- The SPI data register `&SPI1->D`. -/
  | spi1D
  /-- The transmit buffer plus a byte offset. -/
  | txBuf (off : Nat)
  /-- The receive buffer plus a byte offset. -/
  | rxBuf (off : Nat)
  deriving DecidableEq, Repr

/-- The two DMA channels the transport uses. -/
inductive DmaChannelId where
  | DMA_CHANNEL0
  | DMA_CHANNEL1
  deriving DecidableEq, Repr

open DmaChannelId

/-- Hardware-visible actions, logged in program order. -/
inductive Event where
  /-- The timer overflow interrupt enable bit is cleared or set. -/
  | tpm2Toie (en : Bool)
  /-- The value written to `TPM2->CNT`. -/
  | tpm2CntWrite (v : Nat)
  /-- The value a read of `TPM2->CNT` returned. -/
  | tpm2CntRead (v : Nat)
  | tpm2Start
  | tpm2Stop
  | tpm2Load (n : Nat)
  /-- The chip-select line is driven high (`true`) or low (`false`). -/
  | ss (high : Bool)
  /-- The chip-enable line is driven high (`true`) or low (`false`). -/
  | ce (high : Bool)
  /-- The value a read of `SPI1->S` returned. -/
  | spiSRead (v : Nat)
  /-- The byte written to `SPI1->D`. -/
  | spiDWrite (v : Nat)
  /-- The byte a read of `SPI1->D` returned. -/
  | spiDRead (v : Nat)
  /-- The transmit DMA request bit of `SPI1->C2` is set or cleared. -/
  | spiTxDmae (en : Bool)
  /-- The receive DMA request bit of `SPI1->C2` is set or cleared. -/
  | spiRxDmae (en : Bool)
  | dmaInit (ch : DmaChannelId) (src dst : Addr) (count : Nat)
  | dmaStart (ch : DmaChannelId)
  | dmaStop (ch : DmaChannelId)
  /-- The DONE bit of the channel is written as 1, which clears it. -/
  | dmaDoneClear (ch : DmaChannelId)
  /-- The value `ulTaskNotifyTake` returned. -/
  | notifyTake (clearOnExit ticks ret : Nat)
  /-- The pin control register of a pin of port A is written; the value is
  built from vendor macros and is not part of the model. -/
  | portaPcr (pin : Nat)
  /-- The pin of port A is made an output. -/
  | gpioaOutput (pin : Nat)
  /-- The interrupt of port A gets its priority, loses a pending request and
  is enabled. -/
  | portaNvic (priority : Nat)
  deriving DecidableEq, Repr

/-- One DMA channel as the transport programs it. -/
structure DmaChannel where
  src : Option Addr
  dst : Option Addr
  count : Nat
  started : Bool
  done : Bool
  deriving DecidableEq, Repr

/-- The timer TPM2. -/
structure Timer where
  /-- Last value written to or read from the counter. -/
  cnt : Nat
  running : Bool
  /-- Overflow interrupt enable. -/
  toie : Bool
  /-- Argument of the last `TPM2_vLoadCounter`. -/
  loaded : Nat
  deriving DecidableEq, Repr

/-- Registers, the pending-owner slot, the environment script and the log. -/
structure Machine where
  /-- The pending-owner slot; `none` is `NULL`. -/
  xCommTask : Option Nat
  /-- Handle of the running task. -/
  currentTask : Nat
  tpm2 : Timer
  dma0 : DmaChannel
  dma1 : DmaChannel
  /-- The array behind `Addr.txBuf`, which DMA channel 0 reads. -/
  txMem : List Nat
  /-- The array behind `Addr.rxBuf`, as handed over for DMA channel 1 to fill. -/
  rxMem : List Nat
  /-- Last byte written to the SPI data register. -/
  spiD : Nat
  txDmae : Bool
  rxDmae : Bool
  /-- Level of the chip-select line, `true` is high (deasserted). -/
  ssHigh : Bool
  /-- Level of the chip-enable line, `true` is high. -/
  ceHigh : Bool
  /-- Values the coming reads of `TPM2->CNT` return. -/
  cntReads : List Nat
  /-- Values the coming reads of `SPI1->S` return. -/
  sReads : List Nat
  /-- Values the coming reads of `SPI1->D` return. -/
  dReads : List Nat
  /-- Values the coming calls of `ulTaskNotifyTake` return. -/
  notifies : List Nat
  log : List Event
  deriving DecidableEq, Repr

/-- How a run of a driver function ends. -/
inductive Outcome (α : Type) where
  /-- The function returned. -/
  | ret (a : α) (m : Machine)
  /-- A `configASSERT` failed; the machine is as the assertion found it. -/
  | halt (m : Machine)
  /-- The run waits for an answer the environment script does not hold. -/
  | blocked (m : Machine)
  deriving DecidableEq, Repr

/-- The machine a run ended in. -/
def Outcome.machine {α : Type} : Outcome α → Machine
  | .ret _ m => m
  | .halt m => m
  | .blocked m => m

/-- Sequencing: the continuation runs only when the first part returned. -/
def Outcome.andThen {α β : Type} : Outcome α → (α → Machine → Outcome β) → Outcome β
  | .ret a m, f => f a m
  | .halt m, _ => .halt m
  | .blocked m, _ => .blocked m

/-- A driver function: from the machine before the call to the outcome. -/
def Drv (α : Type) : Type := Machine → Outcome α

instance : Monad Drv where
  pure a := fun m => Outcome.ret a m
  bind x f := fun m => (x m).andThen f

/-- Append one event to the log. -/
def Machine.emit (m : Machine) (e : Event) : Machine :=
  { m with log := m.log ++ [e] }

/-- Modelled from the spec: `configASSERT` and `vAssertCalled` are not part of
the sources; a failed assertion is fatal and halts execution. -/
def configASSERT (c : Bool) : Drv Unit :=
  fun m => if c then .ret () m else .halt m

/-! ## Register accesses and the absent timer, DMA and kernel services -/

/-- The statements `BME_AND8(&TPM2->SC, ~TOIE)` and `BME_OR8(&TPM2->SC, TOIE)`. -/
def tpm2SetToie (en : Bool) : Drv Unit :=
  fun m => .ret () ({ m with tpm2 := { m.tpm2 with toie := en } }.emit (.tpm2Toie en))

/-- The statement `TPM2->CNT = v`. -/
def tpm2WriteCnt (v : Nat) : Drv Unit :=
  fun m => .ret () ({ m with tpm2 := { m.tpm2 with cnt := v } }.emit (.tpm2CntWrite v))

/-- Modelled from the spec: `TPM2_vStart` is not part of the sources; the timer
service starts the counter. -/
def TPM2_vStart : Drv Unit :=
  fun m => .ret () ({ m with tpm2 := { m.tpm2 with running := true } }.emit .tpm2Start)

/-- Modelled from the spec: `TPM2_vStop` is not part of the sources; the timer
service stops the counter. -/
def TPM2_vStop : Drv Unit :=
  fun m => .ret () ({ m with tpm2 := { m.tpm2 with running := false } }.emit .tpm2Stop)

/-- Modelled from the spec: `TPM2_vLoadCounter` is not part of the sources; the
timer service is programmed to count for the given duration. -/
def TPM2_vLoadCounter (n : Nat) : Drv Unit :=
  fun m => .ret () ({ m with tpm2 := { m.tpm2 with loaded := n } }.emit (.tpm2Load n))

/-- One read of `TPM2->CNT`, as scripted by the environment. -/
def tpm2ReadCnt : Drv Nat :=
  fun m => match m.cntReads with
    | [] => .blocked m
    | v :: vs => .ret v ({ m with cntReads := vs, tpm2 := { m.tpm2 with cnt := v } }.emit (.tpm2CntRead v))

/-- The loop `while (TPM2->CNT < bound) { }`; the first argument bounds the
number of reads and is the length of the script. -/
def tpm2WaitCnt : Nat → Nat → Drv Unit
  | 0, _ => fun m => .blocked m
  | fuel + 1, bound => do
      let v ← tpm2ReadCnt
      if v < bound then tpm2WaitCnt fuel bound else pure ()

/-- One read of `SPI1->S`, as scripted by the environment. -/
def spiReadS : Drv Nat :=
  fun m => match m.sReads with
    | [] => .blocked m
    | v :: vs => .ret v ({ m with sReads := vs }.emit (.spiSRead v))

/-- The macro `BME_UBFX8`: the unsigned bit field of the given width at the
given position. -/
def BME_UBFX8 (reg shift width : Nat) : Nat := (reg >>> shift) % 2 ^ width

/-- The loop `while (!BME_UBFX8(&SPI1->S, shift, width)) { }`; the first
argument bounds the number of reads and is the length of the script. -/
def spiWaitFlag : Nat → Nat → Nat → Drv Unit
  | 0, _, _ => fun m => .blocked m
  | fuel + 1, shift, width => do
      let v ← spiReadS
      if BME_UBFX8 v shift width = 0 then spiWaitFlag fuel shift width else pure ()

/-- The statement `SPI1->D = v`. -/
def spiWriteD (v : Nat) : Drv Unit :=
  fun m => .ret () ({ m with spiD := v }.emit (.spiDWrite v))

/-- One read of `SPI1->D`, as scripted by the environment. -/
def spiReadD : Drv Nat :=
  fun m => match m.dReads with
    | [] => .blocked m
    | v :: vs => .ret v ({ m with dReads := vs }.emit (.spiDRead v))

/-- The statements `BME_OR8(&SPI1->C2, SPI_C2_TXDMAE(1))` and its `BME_AND8`
counterpart. -/
def spiSetTxDmae (en : Bool) : Drv Unit :=
  fun m => .ret () ({ m with txDmae := en }.emit (.spiTxDmae en))

/-- The statements `BME_OR8(&SPI1->C2, SPI_C2_RXDMAE(1))` and its `BME_AND8`
counterpart. -/
def spiSetRxDmae (en : Bool) : Drv Unit :=
  fun m => .ret () ({ m with rxDmae := en }.emit (.spiRxDmae en))

/-- Read one channel of the machine. -/
def Machine.dma (m : Machine) : DmaChannelId → DmaChannel
  | DMA_CHANNEL0 => m.dma0
  | DMA_CHANNEL1 => m.dma1

/-- Replace one channel of the machine. -/
def Machine.setDma (m : Machine) (ch : DmaChannelId) (c : DmaChannel) : Machine :=
  match ch with
  | DMA_CHANNEL0 => { m with dma0 := c }
  | DMA_CHANNEL1 => { m with dma1 := c }

/-- Modelled from the spec: `DMA0_vInitTransaction` is not part of the sources;
it configures the source, the destination and the byte count of a channel. -/
def DMA0_vInitTransaction (ch : DmaChannelId) (src dst : Addr) (count : Nat) : Drv Unit :=
  fun m => .ret ()
    ((m.setDma ch { m.dma ch with src := some src, dst := some dst, count := count }).emit
      (.dmaInit ch src dst count))

/-- Modelled from the spec: `DMA0_vStart` is not part of the sources; it starts
a channel. -/
def DMA0_vStart (ch : DmaChannelId) : Drv Unit :=
  fun m => .ret () ((m.setDma ch { m.dma ch with started := true }).emit (.dmaStart ch))

/-- Modelled from the spec: `DMA0_vStop` is not part of the sources; it stops a
channel. -/
def DMA0_vStop (ch : DmaChannelId) : Drv Unit :=
  fun m => .ret () ((m.setDma ch { m.dma ch with started := false }).emit (.dmaStop ch))

/-- The statement `BME_OR32(&DMA0->DMA[ch].DSR_BCR, DMA_DSR_BCR_DONE(1))`:
writing the done bit as 1 clears it. -/
def dmaClearDone (ch : DmaChannelId) : Drv Unit :=
  fun m => .ret () ((m.setDma ch { m.dma ch with done := false }).emit (.dmaDoneClear ch))

/-- Modelled from the spec: `xTaskGetCurrentTaskHandle` is a kernel service; it
returns the handle of the calling task. -/
def xTaskGetCurrentTaskHandle : Drv Nat :=
  fun m => .ret m.currentTask m

/-- Modelled from the spec: `ulTaskNotifyTake` is a kernel service and the
completion interrupt handler is not part of the sources. The calling task is
suspended until the environment answers; a non-zero answer is the notification
of the completion interrupt, which has cleared the pending-owner slot, and 0 is
the timeout, which leaves the slot as it is. -/
def ulTaskNotifyTake (xClearCountOnExit xTicksToWait : Nat) : Drv Nat :=
  fun m => match m.notifies with
    | [] => .blocked m
    | v :: vs =>
      .ret v ({ m with notifies := vs,
                       xCommTask := if v = 0 then m.xCommTask else none }.emit
        (.notifyTake xClearCountOnExit xTicksToWait v))

/-- The pointer arguments of a transfer: the arrays `pucTxData` and `pucRxData`
point to are the memory behind `Addr.txBuf` and `Addr.rxBuf`, which the DMA
channels read and fill. -/
def bindBuffers (pucTxData pucRxData : List Nat) : Drv Unit :=
  fun m => .ret () { m with txMem := pucTxData, rxMem := pucRxData }

/-- The statement `xCommTask = h`. -/
def setCommTask (h : Nat) : Drv Unit :=
  fun m => .ret () { m with xCommTask := some h }

/-- Read the pending-owner slot. -/
def getCommTask : Drv (Option Nat) :=
  fun m => .ret m.xCommTask m

/-! ## spi.c -/

/-- The function `SPI1_vSetSlave`: the register written is the clear register for `LOW`
and, one word below it, the set register for `HIGH`. -/
def SPI1_vSetSlave (ulState : Nat) : Drv Unit := do
  configASSERT (ulState == LOW || ulState == HIGH)
  fun m => .ret () ({ m with ssHigh := (ulState == HIGH) }.emit (.ss (ulState == HIGH)))

/-- The function `SPI1_ucReadPolling`. -/
def SPI1_ucReadPolling (b : Board) : Drv Nat := do
  (fun m => spiWaitFlag m.sReads.length b.SPI_S_SPRF_SHIFT b.SPI_S_SPRF_WIDTH m)
  spiReadD

/-- The function `SPI1_vTransmitByte`. -/
def SPI1_vTransmitByte (b : Board) (ucByte : Nat) : Drv Unit := do
  (fun m => spiWaitFlag m.sReads.length b.SPI_S_SPTEF_SHIFT b.SPI_S_SPTEF_WIDTH m)
  SPI1_vSetSlave LOW
  spiWriteD (ucByte % 256)
  let _ ← SPI1_ucReadPolling b
  SPI1_vSetSlave HIGH

/-- The byte loop of `SPI1_vTransmitPolling`: `n` iterations are left, `i` is
the index, and the receive buffer is threaded through. -/
def SPI1_vTransmitPolling.loop (b : Board) (pucData : List Nat) :
    Nat → Nat → List Nat → Drv (List Nat)
  | 0, _, pucRxData => pure pucRxData
  | n + 1, i, pucRxData => do
      (fun m => spiWaitFlag m.sReads.length b.SPI_S_SPTEF_SHIFT b.SPI_S_SPTEF_WIDTH m)
      spiWriteD (pucData.getD i 0)
      let v ← SPI1_ucReadPolling b
      SPI1_vTransmitPolling.loop b pucData n (i + 1) (pucRxData.set i v)

/-- The function `SPI1_vTransmitPolling`; the result is the receive buffer. -/
def SPI1_vTransmitPolling (b : Board) (pucData pucRxData : List Nat) (ulLength : Nat) :
    Drv (List Nat) := do
  tpm2SetToie false
  tpm2WriteCnt 0
  TPM2_vStart
  SPI1_vSetSlave LOW
  let rx ← SPI1_vTransmitPolling.loop b pucData ulLength 0 pucRxData
  (fun m => tpm2WaitCnt m.cntReads.length ((b.TIME_PER_BYTE * ulLength) % UINT32) m)
  TPM2_vStop
  SPI1_vSetSlave HIGH
  tpm2SetToie true
  pure rx

/-- The function `SPI1_vTransmitDMA`. The buffers are named by `Addr.txBuf` and
`Addr.rxBuf` and the machine keeps the arrays behind the two names; what the
DMA engine writes into the receive buffer is not part of the model. -/
def SPI1_vTransmitDMA (b : Board) (pucTxData pucRxData : List Nat) (ulLength : Nat) :
    Drv Unit := do
  let owner ← getCommTask
  configASSERT (owner == none)
  let h ← xTaskGetCurrentTaskHandle
  setCommTask h
  TPM2_vLoadCounter ulLength
  bindBuffers pucTxData pucRxData
  DMA0_vInitTransaction DMA_CHANNEL0 (.txBuf BYTE_OFFSET) .spi1D
    ((ulLength + UINT32 - BYTE_OFFSET) % UINT32)
  DMA0_vInitTransaction DMA_CHANNEL1 .spi1D (.rxBuf 0) ulLength
  SPI1_vSetSlave LOW
  tpm2WriteCnt 0
  TPM2_vStart
  let _ ← spiReadS
  spiWriteD (pucTxData.getD 0 0)
  spiSetTxDmae true
  spiSetRxDmae true
  DMA0_vStart DMA_CHANNEL0
  let ulTxDone ← ulTaskNotifyTake COMM_TASK_NOTIFICATION b.xMaxBlockTime
  configASSERT (ulTxDone == COMM_TASK_NOTIFICATION)
  spiSetTxDmae false
  spiSetRxDmae false
  DMA0_vStop DMA_CHANNEL0
  dmaClearDone DMA_CHANNEL0
  dmaClearDone DMA_CHANNEL1

/-! ## nrf24l01.c -/

/-- The function `nRF24L01_vSetChipEnable`. -/
def nRF24L01_vSetChipEnable (ulState : Nat) : Drv Unit := do
  configASSERT (ulState == LOW || ulState == HIGH)
  fun m => .ret () ({ m with ceHigh := (ulState == HIGH) }.emit (.ce (ulState == HIGH)))

/-- The function `nRF24L01_vConfigureIRQ`. -/
def nRF24L01_vConfigureIRQ : Drv Unit :=
  fun m => .ret () ((m.emit (.portaPcr IRQ)).emit (.portaNvic 2))

/-- The function `nRF24L01_vConfigureChipEnable`. -/
def nRF24L01_vConfigureChipEnable : Drv Unit :=
  fun m => .ret () ((m.emit (.portaPcr CE)).emit (.gpioaOutput CE))

/-- The function `nRF24L01_vStartTransmission`. -/
def nRF24L01_vStartTransmission (b : Board) : Drv Unit := do
  tpm2SetToie false
  tpm2WriteCnt 0
  nRF24L01_vSetChipEnable HIGH
  TPM2_vStart
  (fun m => tpm2WaitCnt m.cntReads.length b.TEN_MICROSECONDS m)
  TPM2_vStop
  nRF24L01_vSetChipEnable LOW
  tpm2SetToie true
  tpm2WriteCnt 0

/-- The function `nRF24L01_vWriteRegister`. -/
def nRF24L01_vWriteRegister (b : Board) (ucRegister ucValue : Nat) : Drv Unit := do
  let ucBuffer := List.replicate MAX_PAYLOAD_LEN 0
  let ucData := [(W_REGISTER ||| ucRegister) % 256, ucValue % 256]
  let _ ← SPI1_vTransmitPolling b ucData ucBuffer 2
  pure ()

/-- The function `nRF24L01_vSendCommand`. -/
def nRF24L01_vSendCommand (b : Board) (ucCommand : Nat) : Drv Unit :=
  SPI1_vTransmitByte b (ucCommand % 256)

/-- The function `nRF24L01_vResetStatusFlags`. -/
def nRF24L01_vResetStatusFlags (b : Board) : Drv Unit :=
  nRF24L01_vWriteRegister b STATUS (STATUS_RX_DR 1 ||| STATUS_TX_DS 1 ||| STATUS_MAX_RT 1)

/-- The frame-building loop shared by `nRF24L01_vSendPayload` and
`nRF24L01_vWriteAddressRegister`: `ucTxData[i + 1] = src[i]` for `n` more
indices starting at `i`. -/
def buildMessage (src : List Nat) : Nat → Nat → List Nat → List Nat
  | 0, _, ucTxData => ucTxData
  | n + 1, i, ucTxData => buildMessage src n (i + 1) (ucTxData.set (i + 1) (src.getD i 0))

/-- The function `nRF24L01_vSendPayload`. The two arrays of variable length are
zero-filled. -/
def nRF24L01_vSendPayload (b : Board) (pucPayload : List Nat) (ulLength : Nat) : Drv Unit := do
  let ulLength := (ulLength + 1) % UINT32
  configASSERT (ulLength < MAX_PAYLOAD_LEN)
  let ucRxData := List.replicate ulLength 0
  let ucTxData := List.replicate ulLength 0
  nRF24L01_vWriteRegister b RX_PW_P0 (RX_PW_PX ulLength)
  nRF24L01_vSendCommand b FLUSH_TX
  nRF24L01_vResetStatusFlags b
  let ucTxData := ucTxData.set 0 (W_TX_PAYLOAD % 256)
  let ucTxData := buildMessage pucPayload ((ulLength + UINT32 - 1) % UINT32) 0 ucTxData
  SPI1_vTransmitDMA b ucTxData ucRxData ulLength
  nRF24L01_vStartTransmission b

/-- The function `nRF24L01_vWriteAddressRegister`. The two arrays of variable length are
zero-filled. -/
def nRF24L01_vWriteAddressRegister (b : Board) (ucRegister : Nat) (pucValue : List Nat)
    (ulLength : Nat) : Drv Unit := do
  configASSERT (ulLength ≤ ADDR_40BIT_LEN)
  let ulLength := (ulLength + 1) % UINT32
  let ucRxData := List.replicate ulLength 0
  let ucTxData := List.replicate ulLength 0
  let ucTxData := ucTxData.set 0 ((W_REGISTER ||| ucRegister) % 256)
  let ucTxData := buildMessage pucValue ((ulLength + UINT32 - 1) % UINT32) 0 ucTxData
  SPI1_vTransmitDMA b ucTxData ucRxData ulLength

/-- The function `nRF24L01_vInit`. -/
def nRF24L01_vInit (b : Board) : Drv Unit := do
  nRF24L01_vConfigureIRQ
  nRF24L01_vConfigureChipEnable
  nRF24L01_vSetChipEnable LOW
  nRF24L01_vWriteRegister b RF_CH (RF_CH_MHZ 50)
  let ucTxAddr := [0x11, 0x22, 0x33, 0x44, 0x55, 0x00]
  nRF24L01_vWriteAddressRegister b RX_ADDR_P0 ucTxAddr ADDR_40BIT_LEN
  nRF24L01_vWriteAddressRegister b TX_ADDR ucTxAddr ADDR_40BIT_LEN
  nRF24L01_vWriteRegister b EN_RXADDR (EN_RXADDR_ERX_P0 1)
  nRF24L01_vWriteRegister b EN_AA (EN_AA_ENAA_P0 1)
  nRF24L01_vWriteRegister b SETUP_RETR (SETUP_RETR_ARD 1 ||| SETUP_RETR_ARC 3)
  nRF24L01_vWriteRegister b CONFIG (CONFIG_EN_CRC 1 ||| CONFIG_CRCO 1 ||| CONFIG_PWR_UP 1)

/-! ## Observations on runs -/

/-- A machine at rest: no pending owner, chip-select high, chip-enable low, an
empty environment script and an empty log. -/
def idle : Machine :=
  { xCommTask := none, currentTask := 7,
    tpm2 := { cnt := 0, running := false, toie := true, loaded := 0 },
    dma0 := { src := none, dst := none, count := 0, started := false, done := false },
    dma1 := { src := none, dst := none, count := 0, started := false, done := false },
    txMem := [], rxMem := [],
    spiD := 0, txDmae := false, rxDmae := false, ssHigh := true, ceHigh := false,
    cntReads := [], sReads := [], dReads := [], notifies := [], log := [] }

/-- The events a run appended: the log of the final machine without the log of
the initial one. -/
def Machine.since (m m1 : Machine) : List Event := m1.log.drop m.log.length

/-- Accesses to the SPI status and data registers. -/
def Event.isSpi : Event → Bool
  | .spiSRead _ => true
  | .spiDWrite _ => true
  | .spiDRead _ => true
  | _ => false

/-- Events seen on the bus: chip-select edges and the bytes written to and
read from the data register. -/
def Event.onBus : Event → Bool
  | .ss _ => true
  | .spiDWrite _ => true
  | .spiDRead _ => true
  | _ => false

/-- The bus events of a log, in order. -/
def busTrace (l : List Event) : List Event := l.filter Event.onBus

/-- Byte exchanges in order: each byte written is followed by the byte read. -/
def exchange : List Nat → List Nat → List Event
  | t :: ts, r :: rs => Event.spiDWrite t :: Event.spiDRead r :: exchange ts rs
  | _, _ => []

/-- Whether the run returned. -/
def Outcome.returned {α : Type} : Outcome α → Bool
  | .ret _ _ => true
  | _ => false

/-- Whether the run stopped at a failed assertion. -/
def Outcome.halted {α : Type} : Outcome α → Bool
  | .halt _ => true
  | _ => false

/-- A machine at rest whose environment answers: every status read shows both
flags set, every data read returns 0, the counter reads 200, 200 and 500, and
one notification arrives. -/
def answering : Machine :=
  { idle with sReads := List.replicate 16 0xA0, dReads := List.replicate 8 0,
              cntReads := [200, 200, 500], notifies := [1] }

/-- The environment answers every coming read of the SPI status register with
both the transmit-buffer-empty and the receive-buffer-full flag set. -/
def Machine.spiReady (b : Board) (m : Machine) : Prop :=
  ∀ v ∈ m.sReads, BME_UBFX8 v b.SPI_S_SPTEF_SHIFT b.SPI_S_SPTEF_WIDTH ≠ 0 ∧
    BME_UBFX8 v b.SPI_S_SPRF_SHIFT b.SPI_S_SPRF_WIDTH ≠ 0

instance (b : Board) (m : Machine) : Decidable (m.spiReady b) := by
  unfold Machine.spiReady
  exact inferInstance

/-- Modelled from the spec: the DMA engine is not part of the sources; a channel
whose source is the transmit buffer streams `count` bytes from it, starting at
the source offset. -/
def dmaStream (tx : List Nat) (c : DmaChannel) : List Nat :=
  match c.src with
  | some (Addr.txBuf off) => (tx.drop off).take c.count
  | _ => []

/-- Modelled from the spec: the DMA engine is not part of the sources; a channel
whose destination is the receive buffer fills `count` slots of it, starting at
the destination offset. -/
def dmaSlots (c : DmaChannel) : List Nat :=
  match c.dst with
  | some (Addr.rxBuf off) => (List.range c.count).map (fun i => off + i)
  | _ => []

/-- The frame of a DMA transfer as the bus carries it: the byte the driver wrote
to the data register by hand, then the bytes channel 0 moves there from the
array behind `Addr.txBuf`. -/
def Machine.dmaFrame (m : Machine) : List Nat := m.spiD :: dmaStream m.txMem m.dma0

/-- The machine in which a first DMA transfer is still waiting for its
completion notification. -/
def pending : Machine :=
  (SPI1_vTransmitDMA kl25 [0xA0, 0x50] [0, 0] 2 { idle with sReads := [0x20] }).machine

/-- A DMA transfer of the frame A0 50 49 4E 47 that is notified in time. -/
def pingTransfer : Outcome Unit :=
  SPI1_vTransmitDMA kl25 [0xA0, 0x50, 0x49, 0x4E, 0x47] (List.replicate 5 0) 5
    { idle with sReads := [0x20], notifies := [1] }

/-- A call of `nRF24L01_vSendPayload` with the largest 32-bit length; the
environment answers the first register write and nothing after it. -/
def maxLengthSend : Outcome Unit :=
  nRF24L01_vSendPayload kl25 [] 4294967295
    { idle with sReads := [0xA0, 0xA0, 0xA0, 0xA0], dReads := [0, 0], cntReads := [200] }

/-- A transfer length whose product with 96 ticks per byte exceeds 2^32 by 32. -/
def wrapLength : Nat := 44739243

/-- An environment for a transfer of `wrapLength` bytes: every status poll finds
both flags set, every byte read is 0, and the one read of the counter returns 32. -/
def wrapMachine : Machine :=
  { idle with sReads := List.replicate (2 * wrapLength) 0xA0,
              dReads := List.replicate wrapLength 0, cntReads := [32] }

/-- The first call of `nRF24L01_vWriteAddressRegister` in `nRF24L01_vInit`: six
bytes for the pipe 0 receive address, notified in time. -/
def sixByteAddress : Outcome Unit :=
  nRF24L01_vWriteAddressRegister kl25 RX_ADDR_P0 [0x11, 0x22, 0x33, 0x44, 0x55, 0x00]
    ADDR_40BIT_LEN { idle with sReads := [0x20], notifies := [1] }

/-- An idle machine whose environment answers one status read and notifies one
DMA transfer. -/
def addressTransfer : Machine := { idle with sReads := [0x20], notifies := [1] }

/-- The bytes written to the SPI data register, in order. -/
def dataWrites : List Event → List Nat
  | [] => []
  | Event.spiDWrite v :: es => v :: dataWrites es
  | _ :: es => dataWrites es

/-- A run of `nRF24L01_vInit` in which every status poll finds both flags set,
every byte read is 0, the counter reads 200 and both DMA transfers are notified
in time. -/
def initRun : Outcome Unit :=
  nRF24L01_vInit kl25
    { idle with sReads := List.replicate 22 0xA0, dReads := List.replicate 10 0,
                cntReads := List.replicate 5 200, notifies := [1, 1] }

/-- Events of the transport operations of the radio driver: chip-select and
chip-enable edges, bytes written to the data register, and the programming and
start of a DMA channel. -/
def Event.isTransport : Event → Bool
  | .ss _ => true
  | .ce _ => true
  | .spiDWrite _ => true
  | .dmaInit _ _ _ _ => true
  | .dmaStart _ => true
  | _ => false

/-- The transport events of a log, in order. -/
def transportTrace (l : List Event) : List Event := l.filter Event.isTransport

/-! ## Lemmas -/

@[simp] theorem bind_apply {α β : Type} (x : Drv α) (f : α → Drv β) (m : Machine) :
    (x >>= f) m = (x m).andThen f := rfl

@[simp] theorem pure_apply {α : Type} (a : α) (m : Machine) :
    (pure a : Drv α) m = Outcome.ret a m := rfl

@[simp] theorem andThen_ret {α β : Type} (a : α) (m : Machine) (f : α → Machine → Outcome β) :
    (Outcome.ret a m).andThen f = f a m := rfl

@[simp] theorem andThen_halt {α β : Type} (m : Machine) (f : α → Machine → Outcome β) :
    (Outcome.halt m : Outcome α).andThen f = Outcome.halt m := rfl

@[simp] theorem andThen_blocked {α β : Type} (m : Machine) (f : α → Machine → Outcome β) :
    (Outcome.blocked m : Outcome α).andThen f = Outcome.blocked m := rfl

@[simp] theorem busTrace_nil : busTrace [] = [] := rfl

@[simp] theorem busTrace_append (l₁ l₂ : List Event) :
    busTrace (l₁ ++ l₂) = busTrace l₁ ++ busTrace l₂ := by
  simp [busTrace]

@[simp] theorem busTrace_sReads (l : List Nat) : busTrace (l.map Event.spiSRead) = [] := by
  induction l with
  | nil => rfl
  | cons v vs ih => simp [busTrace, Event.onBus]

@[simp] theorem busTrace_cntReads (l : List Nat) : busTrace (l.map Event.tpm2CntRead) = [] := by
  induction l with
  | nil => rfl
  | cons v vs ih => simp [busTrace, Event.onBus]

theorem spiWaitFlag_shape (shift width : Nat) :
    ∀ (fuel : Nat) (m : Machine), fuel = m.sReads.length →
      ∃ (m1 : Machine) (reads : List Nat), m1.log = m.log ++ reads.map Event.spiSRead ∧
        m1.cntReads = m.cntReads ∧
        (spiWaitFlag fuel shift width m = Outcome.blocked m1 ∨
         spiWaitFlag fuel shift width m = Outcome.ret () m1) := by
  intro fuel
  induction fuel with
  | zero =>
    intro m _
    exact ⟨m, [], by simp, rfl, Or.inl rfl⟩
  | succ fuel ih =>
    intro m hf
    cases hc : m.sReads with
    | nil => simp [hc] at hf
    | cons v vs =>
      have hlen : fuel = vs.length := by simpa [hc] using hf
      by_cases hv : BME_UBFX8 v shift width = 0
      · let m1 : Machine := ({ m with sReads := vs }).emit (Event.spiSRead v)
        have hstep : spiWaitFlag (fuel + 1) shift width m = spiWaitFlag fuel shift width m1 := by
          simp [spiWaitFlag, spiReadS, hc, hv, m1]
        obtain ⟨m', reads, h1, hc1, h2⟩ := ih m1 (by simpa [m1, Machine.emit] using hlen)
        refine ⟨m', v :: reads, ?_, ?_, ?_⟩
        · simp [h1, m1, Machine.emit]
        · simp [hc1, m1, Machine.emit]
        · rw [hstep]; exact h2
      · refine ⟨({ m with sReads := vs }).emit (Event.spiSRead v), [v], ?_, ?_, Or.inr ?_⟩
        · simp [Machine.emit]
        · simp [Machine.emit]
        · simp [spiWaitFlag, spiReadS, hc, hv]

theorem SPI1_ucReadPolling_shape (b : Board) (m : Machine) :
    ∃ (m1 : Machine) (δ : List Event), m1.log = m.log ++ δ ∧ m1.cntReads = m.cntReads ∧
      (∀ e ∈ δ, Event.isSpi e = true) ∧
      ((SPI1_ucReadPolling b m = Outcome.blocked m1 ∧ busTrace δ = []) ∨
       ∃ v, SPI1_ucReadPolling b m = Outcome.ret v m1 ∧ busTrace δ = [Event.spiDRead v]) := by
  obtain ⟨m1, reads, h1, hc1, h2⟩ :=
    spiWaitFlag_shape b.SPI_S_SPRF_SHIFT b.SPI_S_SPRF_WIDTH m.sReads.length m rfl
  have hspi : ∀ e ∈ reads.map Event.spiSRead, Event.isSpi e = true := by
    intro e he
    obtain ⟨v, _, rfl⟩ := List.mem_map.mp he
    rfl
  rcases h2 with h2 | h2
  · exact ⟨m1, _, h1, hc1, hspi, Or.inl ⟨by simp [SPI1_ucReadPolling, h2], by simp⟩⟩
  · cases hd : m1.dReads with
    | nil =>
      exact ⟨m1, _, h1, hc1, hspi,
        Or.inl ⟨by simp [SPI1_ucReadPolling, h2, spiReadD, hd], by simp⟩⟩
    | cons v vs =>
      refine ⟨({ m1 with dReads := vs }).emit (Event.spiDRead v),
        reads.map Event.spiSRead ++ [Event.spiDRead v], ?_, ?_, ?_, Or.inr ⟨v, ?_, ?_⟩⟩
      · simp [Machine.emit, h1]
      · simp [Machine.emit, hc1]
      · intro e he
        rcases List.mem_append.mp he with he | he
        · exact hspi e he
        · simp at he; subst he; rfl
      · simp [SPI1_ucReadPolling, h2, spiReadD, hd]
      · simp [busTrace, Event.onBus]

theorem tpm2WaitCnt_shape (bound : Nat) :
    ∀ (fuel : Nat) (m : Machine), fuel = m.cntReads.length →
      (∃ m', tpm2WaitCnt fuel bound m = Outcome.blocked m' ∧
          m'.log = m.log ++ m.cntReads.map Event.tpm2CntRead ∧
          ∀ x ∈ m.cntReads, x < bound) ∨
      (∃ m' pre v post, tpm2WaitCnt fuel bound m = Outcome.ret () m' ∧
          m'.log = m.log ++ pre.map Event.tpm2CntRead ++ [Event.tpm2CntRead v] ∧
          (∀ x ∈ pre, x < bound) ∧ bound ≤ v ∧ m.cntReads = pre ++ v :: post ∧
          m'.cntReads = post) := by
  intro fuel
  induction fuel with
  | zero =>
    intro m hf
    have hnil : m.cntReads = [] := List.length_eq_zero.mp hf.symm
    left
    exact ⟨m, rfl, by simp [hnil], by simp [hnil]⟩
  | succ fuel ih =>
    intro m hf
    cases hc : m.cntReads with
    | nil => simp [hc] at hf
    | cons v vs =>
      have hlen : fuel = vs.length := by simpa [hc] using hf
      by_cases hv : v < bound
      · let m1 : Machine :=
          ({ m with cntReads := vs, tpm2 := { m.tpm2 with cnt := v } }).emit (Event.tpm2CntRead v)
        have hstep : tpm2WaitCnt (fuel + 1) bound m = tpm2WaitCnt fuel bound m1 := by
          simp [tpm2WaitCnt, tpm2ReadCnt, hc, hv, m1]
        rcases ih m1 (by simpa [m1, Machine.emit] using hlen) with
          ⟨m', h1, h2, h3⟩ | ⟨m', pre, w, post, h1, h2, h3, h4, h5, h6⟩
        · left
          refine ⟨m', by rw [hstep, h1], ?_, ?_⟩
          · simp [h2, m1, Machine.emit]
          · intro x hx
            rcases List.mem_cons.mp hx with rfl | hx
            · exact hv
            · exact h3 x (by simpa [m1, Machine.emit] using hx)
        · right
          refine ⟨m', v :: pre, w, post, by rw [hstep, h1], ?_, ?_, h4, ?_, h6⟩
          · simp [h2, m1, Machine.emit]
          · intro x hx
            rcases List.mem_cons.mp hx with rfl | hx
            · exact hv
            · exact h3 x hx
          · have : vs = pre ++ w :: post := by simpa [m1, Machine.emit] using h5
            simp [this]
      · right
        refine ⟨({ m with cntReads := vs, tpm2 := { m.tpm2 with cnt := v } }).emit
          (Event.tpm2CntRead v), [], v, vs, ?_, ?_, ?_, ?_, ?_, ?_⟩
        · simp [tpm2WaitCnt, tpm2ReadCnt, hc, hv]
        · simp [Machine.emit]
        · simp
        · omega
        · simp
        · simp [Machine.emit]

theorem set_take_drop (v : Nat) (rs : List Nat) (k : Nat) :
    ∀ (rx : List Nat) (i : Nat), i < rx.length →
      (rx.set i v).take (i + 1) ++ rs ++ (rx.set i v).drop (i + 1 + k)
        = rx.take i ++ (v :: rs) ++ rx.drop (i + (k + 1)) := by
  intro rx
  induction rx with
  | nil => intro i hi; simp at hi
  | cons x xs ih =>
    intro i hi
    cases i with
    | zero =>
      have : 0 + 1 + k = k + 1 := by omega
      simp [this]
    | succ i =>
      have h1 : i + 1 + 1 + k = (i + 1 + k) + 1 := by omega
      have h2 : i + 1 + (k + 1) = (i + (k + 1)) + 1 := by omega
      have := ih i (by simpa using hi)
      simp only [List.set_cons_succ, List.take_succ_cons, h1, h2, List.drop_succ_cons,
        List.cons_append]
      simpa using this

theorem loop_shape (b : Board) (tx : List Nat) :
    ∀ (n i : Nat) (rx : List Nat) (m : Machine), i + n ≤ tx.length → i + n ≤ rx.length →
      ∃ (m1 : Machine) (δ : List Event), m1.log = m.log ++ δ ∧ m1.cntReads = m.cntReads ∧
        (∀ e ∈ δ, Event.isSpi e = true) ∧
        (SPI1_vTransmitPolling.loop b tx n i rx m = Outcome.blocked m1 ∨
         ∃ rs : List Nat,
           SPI1_vTransmitPolling.loop b tx n i rx m
             = Outcome.ret (rx.take i ++ rs ++ rx.drop (i + n)) m1 ∧
           rs.length = n ∧ busTrace δ = exchange ((tx.drop i).take n) rs) := by
  intro n
  induction n with
  | zero =>
    intro i rx m _ _
    refine ⟨m, [], by simp, rfl, by simp, Or.inr ⟨[], ?_, rfl, ?_⟩⟩
    · simp [SPI1_vTransmitPolling.loop]
    · simp [exchange]
  | succ n ih =>
    intro i rx m htx hrx
    have hspiS : ∀ reads : List Nat, ∀ e ∈ reads.map Event.spiSRead, Event.isSpi e = true := by
      intro reads e he
      obtain ⟨v, _, rfl⟩ := List.mem_map.mp he
      rfl
    obtain ⟨m1, reads, h1, hc1, h2⟩ :=
      spiWaitFlag_shape b.SPI_S_SPTEF_SHIFT b.SPI_S_SPTEF_WIDTH m.sReads.length m rfl
    rcases h2 with h2 | h2
    · exact ⟨m1, _, h1, hc1, hspiS reads, Or.inl (by simp [SPI1_vTransmitPolling.loop, h2])⟩
    · have hi : i < tx.length := by omega
      have hg : tx.getD i 0 = tx[i] := List.getD_eq_getElem tx 0 hi
      let m2 : Machine := ({ m1 with spiD := tx[i] }).emit (Event.spiDWrite tx[i])
      obtain ⟨m3, δ3, h3, hc3, hs3, h4⟩ := SPI1_ucReadPolling_shape b m2
      have hcnt3 : m3.cntReads = m.cntReads := by
        rw [hc3]; simp [m2, Machine.emit, hc1]
      have hpre : SPI1_vTransmitPolling.loop b tx (n + 1) i rx m
          = (SPI1_ucReadPolling b m2).andThen
              (fun v => SPI1_vTransmitPolling.loop b tx n (i + 1) (rx.set i v)) := by
        rw [SPI1_vTransmitPolling.loop]
        simp only [bind_apply, h2, andThen_ret, spiWriteD, hg]
      have hlog3 : m3.log = m.log ++ (reads.map Event.spiSRead ++ [Event.spiDWrite tx[i]] ++ δ3) := by
        simp [h3, m2, Machine.emit, h1]
      have hspi3 : ∀ e ∈ reads.map Event.spiSRead ++ [Event.spiDWrite tx[i]] ++ δ3,
          Event.isSpi e = true := by
        intro e he
        rcases List.mem_append.mp he with he | he
        · rcases List.mem_append.mp he with he | he
          · exact hspiS reads e he
          · simp at he; subst he; rfl
        · exact hs3 e he
      rcases h4 with ⟨h4, _⟩ | ⟨v, h4, hb4⟩
      · exact ⟨m3, _, hlog3, hcnt3, hspi3, Or.inl (by rw [hpre, h4]; rfl)⟩
      · obtain ⟨m5, δ5, h5, hc5, hs5, h6⟩ := ih (i + 1) (rx.set i v) m3 (by omega) (by simp; omega)
        have hlog5 : m5.log = m.log ++
            ((reads.map Event.spiSRead ++ [Event.spiDWrite tx[i]] ++ δ3) ++ δ5) := by
          rw [h5, hlog3]; simp
        have hspi5 : ∀ e ∈ (reads.map Event.spiSRead ++ [Event.spiDWrite tx[i]] ++ δ3) ++ δ5,
            Event.isSpi e = true := by
          intro e he
          rcases List.mem_append.mp he with he | he
          · exact hspi3 e he
          · exact hs5 e he
        rcases h6 with h6 | ⟨rs, h6, hl6, hb6⟩
        · exact ⟨m5, _, hlog5, hc5.trans hcnt3, hspi5,
            Or.inl (by rw [hpre, h4]; simpa using h6)⟩
        · refine ⟨m5, _, hlog5, hc5.trans hcnt3, hspi5, Or.inr ⟨v :: rs, ?_, by simp [hl6], ?_⟩⟩
          · rw [hpre, h4]
            simp only [andThen_ret, h6]
            rw [set_take_drop v rs n rx i (by omega)]
          · have hd : tx.drop i = tx[i] :: tx.drop (i + 1) := List.drop_eq_getElem_cons hi
            have hw : ∀ l : List Event, busTrace (Event.spiDWrite tx[i] :: l)
                = Event.spiDWrite tx[i] :: busTrace l := fun l => rfl
            rw [hd, List.take_succ_cons]
            simp only [exchange, busTrace_append, busTrace_sReads, hb4, hb6, hw,
              List.nil_append, List.cons_append, List.append_assoc]

@[simp] theorem SPI1_vSetSlave_LOW (m : Machine) :
    SPI1_vSetSlave LOW m = Outcome.ret () { m with ssHigh := false, log := m.log ++ [Event.ss false] } := rfl

@[simp] theorem SPI1_vSetSlave_HIGH (m : Machine) :
    SPI1_vSetSlave HIGH m = Outcome.ret () { m with ssHigh := true, log := m.log ++ [Event.ss true] } := rfl

theorem SPI1_vTransmitPolling_eq (b : Board) (tx rx : List Nat) (L : Nat) (m : Machine) :
    SPI1_vTransmitPolling b tx rx L m =
      (SPI1_vTransmitPolling.loop b tx L 0 rx
        { m with tpm2 := { m.tpm2 with cnt := 0, running := true, toie := false },
                 ssHigh := false,
                 log := m.log ++ [Event.tpm2Toie false, Event.tpm2CntWrite 0, Event.tpm2Start,
                   Event.ss false] }).andThen (fun rx1 m1 =>
          (tpm2WaitCnt m1.cntReads.length ((b.TIME_PER_BYTE * L) % UINT32) m1).andThen
            (fun _ m2 => Outcome.ret rx1
              { m2 with tpm2 := { m2.tpm2 with running := false, toie := true },
                        ssHigh := true,
                        log := m2.log ++ [Event.tpm2Stop, Event.ss true, Event.tpm2Toie true] })) := by
  simp only [SPI1_vTransmitPolling, bind_apply, tpm2SetToie, tpm2WriteCnt, TPM2_vStart,
    SPI1_vSetSlave_LOW, andThen_ret, Machine.emit, List.append_assoc, List.singleton_append,
    List.cons_append, List.nil_append]
  congr 1
  funext rx1 m1
  simp only [bind_apply]
  congr 1
  funext _ m2
  simp only [bind_apply, TPM2_vStop, SPI1_vSetSlave_HIGH, tpm2SetToie, pure_apply, andThen_ret,
    Machine.emit, List.append_assoc, List.singleton_append, List.cons_append, List.nil_append]

theorem SPI1_vTransmitPolling_shape (b : Board) (tx rx : List Nat) (L : Nat) (m : Machine)
    (htx : L ≤ tx.length) (hrx : L ≤ rx.length) :
    ∃ (m1 : Machine) (δ : List Event) (reads : List Nat),
      (∀ e ∈ δ, Event.isSpi e = true) ∧
      (∀ x ∈ reads, x < (b.TIME_PER_BYTE * L) % UINT32) ∧
      (∃ post : List Nat, m.cntReads = reads ++ post) ∧
      ((SPI1_vTransmitPolling b tx rx L m = Outcome.blocked m1 ∧
          m1.log = m.log ++ [Event.tpm2Toie false, Event.tpm2CntWrite 0, Event.tpm2Start,
            Event.ss false] ++ δ ++ reads.map Event.tpm2CntRead) ∨
       (∃ (rs : List Nat) (v : Nat),
          SPI1_vTransmitPolling b tx rx L m = Outcome.ret (rs ++ rx.drop L) m1 ∧
          rs.length = L ∧ busTrace δ = exchange (tx.take L) rs ∧
          (b.TIME_PER_BYTE * L) % UINT32 ≤ v ∧
          (∃ post : List Nat, m.cntReads = reads ++ v :: post) ∧
          m1.log = m.log ++ [Event.tpm2Toie false, Event.tpm2CntWrite 0, Event.tpm2Start,
            Event.ss false] ++ δ ++ reads.map Event.tpm2CntRead ++
            [Event.tpm2CntRead v, Event.tpm2Stop, Event.ss true, Event.tpm2Toie true])) := by
  rw [SPI1_vTransmitPolling_eq]
  obtain ⟨m1, δ, h1, hc1, hs, h2⟩ := loop_shape b tx L 0 rx
    { m with tpm2 := { m.tpm2 with cnt := 0, running := true, toie := false },
             ssHigh := false,
             log := m.log ++ [Event.tpm2Toie false, Event.tpm2CntWrite 0, Event.tpm2Start,
               Event.ss false] } (by omega) (by omega)
  rcases h2 with h2 | ⟨rs, h2, hl, hb⟩
  · refine ⟨m1, δ, [], hs, by simp, ⟨m.cntReads, by simp⟩, Or.inl ⟨by rw [h2]; rfl, ?_⟩⟩
    simpa using h1
  · simp only [List.take_zero, List.nil_append, Nat.zero_add, List.drop_zero] at h2 hb
    rw [h2]
    simp only [andThen_ret]
    rcases tpm2WaitCnt_shape ((b.TIME_PER_BYTE * L) % UINT32) m1.cntReads.length m1 rfl with
      ⟨m2, h3, h4, h5⟩ | ⟨m2, pre, v, post, h3, h4, h5, h6, h7, _⟩
    · refine ⟨m2, δ, m1.cntReads, hs, h5, ⟨[], by simp [hc1]⟩, Or.inl ⟨by rw [h3]; rfl, ?_⟩⟩
      rw [h4, h1]
    · have hsplit : m.cntReads = pre ++ v :: post := by rw [← h7, hc1]
      refine ⟨_, δ, pre, hs, h5, ⟨v :: post, hsplit⟩,
        Or.inr ⟨rs, v, by rw [h3]; rfl, hl, hb, h6, ⟨post, hsplit⟩, ?_⟩⟩
      simp [h4, h1]

theorem spiWaitFlag_ready (shift width : Nat) (m : Machine) (v : Nat) (vs : List Nat)
    (hc : m.sReads = v :: vs) (hv : BME_UBFX8 v shift width ≠ 0) :
    spiWaitFlag m.sReads.length shift width m
      = Outcome.ret () { m with sReads := vs, log := m.log ++ [Event.spiSRead v] } := by
  simp [hc, spiWaitFlag, spiReadS, hv, Machine.emit]

theorem loop_returns (b : Board) (tx : List Nat) :
    ∀ (n i : Nat) (rx : List Nat) (m : Machine), m.spiReady b →
      2 * n ≤ m.sReads.length → n ≤ m.dReads.length →
      ∃ (rx1 : List Nat) (m1 : Machine),
        SPI1_vTransmitPolling.loop b tx n i rx m = Outcome.ret rx1 m1 ∧
        m1.cntReads = m.cntReads := by
  intro n
  induction n with
  | zero =>
    intro i rx m _ _ _
    exact ⟨rx, m, rfl, rfl⟩
  | succ n ih =>
    intro i rx m hr hs hd
    obtain ⟨s1, rest1, hs1⟩ : ∃ s1 rest1, m.sReads = s1 :: rest1 := by
      cases h : m.sReads with
      | nil => simp [h] at hs
      | cons a l => exact ⟨a, l, rfl⟩
    obtain ⟨s2, rest, hs2⟩ : ∃ s2 rest, rest1 = s2 :: rest := by
      cases h : rest1 with
      | nil => simp [hs1, h] at hs; omega
      | cons a l => exact ⟨a, l, rfl⟩
    obtain ⟨d, ds, hd1⟩ : ∃ d ds, m.dReads = d :: ds := by
      cases h : m.dReads with
      | nil => simp [h] at hd
      | cons a l => exact ⟨a, l, rfl⟩
    subst hs2
    have hf1 := (hr s1 (by simp [hs1])).1
    have hf2 := (hr s2 (by simp [hs1])).2
    obtain ⟨rx1, m1, h1, h2⟩ := ih (i + 1) (rx.set i d)
      { m with sReads := rest, dReads := ds, spiD := tx.getD i 0,
               log := m.log ++ [Event.spiSRead s1, Event.spiDWrite (tx.getD i 0),
                 Event.spiSRead s2, Event.spiDRead d] }
      (by
        intro v hv
        exact hr v (by simp only [hs1]; simp at hv ⊢; exact Or.inr (Or.inr hv)))
      (by simp [hs1] at hs ⊢; omega)
      (by simp [hd1] at hd ⊢; omega)
    refine ⟨rx1, m1, ?_, h2⟩
    rw [← h1, SPI1_vTransmitPolling.loop]
    simp only [bind_apply, spiWaitFlag_ready _ _ m s1 (s2 :: rest) hs1 hf1, andThen_ret,
      spiWriteD, Machine.emit, SPI1_ucReadPolling]
    have hw := spiWaitFlag_ready b.SPI_S_SPRF_SHIFT b.SPI_S_SPRF_WIDTH
      { m with sReads := s2 :: rest, spiD := tx.getD i 0,
               log := m.log ++ [Event.spiSRead s1] ++ [Event.spiDWrite (tx.getD i 0)] }
      s2 rest rfl hf2
    simp only [List.length_cons] at hw ⊢
    rw [hw]
    simp [spiReadD, hd1, Machine.emit]

theorem SPI1_vTransmitPolling_returns (b : Board) (tx rx : List Nat) (L : Nat) (m : Machine)
    (hr : m.spiReady b) (hs : 2 * L ≤ m.sReads.length) (hd : L ≤ m.dReads.length)
    (hc : ∃ v ∈ m.cntReads, (b.TIME_PER_BYTE * L) % UINT32 ≤ v) :
    ∃ (rx1 : List Nat) (m1 : Machine), SPI1_vTransmitPolling b tx rx L m = Outcome.ret rx1 m1 := by
  rw [SPI1_vTransmitPolling_eq]
  obtain ⟨rx1, m1, h1, h2⟩ := loop_returns b tx L 0 rx
    { m with tpm2 := { m.tpm2 with cnt := 0, running := true, toie := false },
             ssHigh := false,
             log := m.log ++ [Event.tpm2Toie false, Event.tpm2CntWrite 0, Event.tpm2Start,
               Event.ss false] } hr hs hd
  rw [h1]
  simp only [andThen_ret]
  rcases tpm2WaitCnt_shape ((b.TIME_PER_BYTE * L) % UINT32) m1.cntReads.length m1 rfl with
    ⟨m2, _, _, h5⟩ | ⟨m2, pre, v, post, h3, _⟩
  · obtain ⟨v, hv, hle⟩ := hc
    have := h5 v (by rw [h2]; exact hv)
    omega
  · rw [h3]
    exact ⟨_, _, rfl⟩

theorem buildMessage_append (src : List Nat) :
    ∀ (n i : Nat) (pre junk : List Nat), pre.length = i + 1 → junk.length = n →
      src.length = i + n → buildMessage src n i (pre ++ junk) = pre ++ src.drop i := by
  intro n
  induction n with
  | zero =>
    intro i pre junk hp hj hs
    have hj0 : junk = [] := List.length_eq_zero.mp hj
    have hd : src.drop i = [] := List.drop_eq_nil_of_le (by omega)
    simp [buildMessage, hj0, hd]
  | succ n ih =>
    intro i pre junk hp hj hs
    cases junk with
    | nil => simp at hj
    | cons j junk =>
      have hi : i < src.length := by omega
      have hd : src.drop i = src[i] :: src.drop (i + 1) := List.drop_eq_getElem_cons hi
      have hg : src.getD i 0 = src[i] := List.getD_eq_getElem src 0 hi
      have hset : (pre ++ j :: junk).set (i + 1) (src.getD i 0) = (pre ++ [src[i]]) ++ junk := by
        rw [List.set_append_right _ _ (by omega), hg]
        simp [hp]
      have hj1 : junk.length = n := by simpa using hj
      rw [buildMessage, hset, ih (i + 1) (pre ++ [src[i]]) junk (by simp [hp]) hj1 (by omega), hd]
      simp

theorem buildMessage_frame (src : List Nat) (n first : Nat) (h : src.length = n) :
    buildMessage src n 0 ((List.replicate (n + 1) 0).set 0 first) = first :: src := by
  have := buildMessage_append src n 0 [first] (List.replicate n 0) rfl (by simp) (by omega)
  simpa [List.replicate_succ] using this

theorem since_of_log (m m1 : Machine) (δ : List Event) (h : m1.log = m.log ++ δ) :
    m.since m1 = δ := by
  simp [Machine.since, h]

theorem since_polling (m m1 : Machine) (δ : List Event) (reads : List Nat) (v : Nat)
    (h : m1.log = m.log ++ [Event.tpm2Toie false, Event.tpm2CntWrite 0, Event.tpm2Start,
        Event.ss false] ++ δ ++ reads.map Event.tpm2CntRead
        ++ [Event.tpm2CntRead v, Event.tpm2Stop, Event.ss true, Event.tpm2Toie true]) :
    m.since m1 = [Event.tpm2Toie false, Event.tpm2CntWrite 0, Event.tpm2Start, Event.ss false]
        ++ δ ++ reads.map Event.tpm2CntRead
        ++ [Event.tpm2CntRead v, Event.tpm2Stop, Event.ss true, Event.tpm2Toie true] :=
  since_of_log m m1 _ (by rw [h]; simp only [List.append_assoc])

theorem busTrace_polling (δ : List Event) (reads : List Nat) (v : Nat) :
    busTrace ([Event.tpm2Toie false, Event.tpm2CntWrite 0, Event.tpm2Start, Event.ss false]
        ++ δ ++ reads.map Event.tpm2CntRead
        ++ [Event.tpm2CntRead v, Event.tpm2Stop, Event.ss true, Event.tpm2Toie true])
      = Event.ss false :: busTrace δ ++ [Event.ss true] := by
  simp only [busTrace_append, busTrace_cntReads, List.append_nil]
  rfl

theorem SPI1_vTransmitDMA_busy (b : Board) (tx rx : List Nat) (L : Nat) (m : Machine)
    (h : m.xCommTask ≠ none) : SPI1_vTransmitDMA b tx rx L m = Outcome.halt m := by
  cases hx : m.xCommTask with
  | none => exact absurd hx h
  | some t => simp [SPI1_vTransmitDMA, getCommTask, configASSERT, hx]

/-- The events of `SPI1_vTransmitDMA` up to the read of the status register. -/
theorem SPI1_vTransmitDMA_no_status (b : Board) (tx rx : List Nat) (L : Nat) (m : Machine)
    (hx : m.xCommTask = none) (hs : m.sReads = []) :
    SPI1_vTransmitDMA b tx rx L m = Outcome.blocked
      { m with xCommTask := some m.currentTask,
               tpm2 := { m.tpm2 with cnt := 0, running := true, loaded := L },
               dma0 := { m.dma0 with src := some (Addr.txBuf 1), dst := some Addr.spi1D,
                                     count := (L + UINT32 - 1) % UINT32 },
               dma1 := { m.dma1 with src := some Addr.spi1D, dst := some (Addr.rxBuf 0),
                                     count := L },
               txMem := tx, rxMem := rx,
               ssHigh := false,
               log := m.log ++ [Event.tpm2Load L,
                 Event.dmaInit DMA_CHANNEL0 (Addr.txBuf 1) Addr.spi1D ((L + UINT32 - 1) % UINT32),
                 Event.dmaInit DMA_CHANNEL1 Addr.spi1D (Addr.rxBuf 0) L,
                 Event.ss false, Event.tpm2CntWrite 0, Event.tpm2Start] } := by
  simp [SPI1_vTransmitDMA, getCommTask, configASSERT, hx, hs, xTaskGetCurrentTaskHandle,
    setCommTask, TPM2_vLoadCounter, bindBuffers, DMA0_vInitTransaction, tpm2WriteCnt, TPM2_vStart, spiReadS,
    Machine.emit, Machine.setDma, Machine.dma, BYTE_OFFSET]

theorem SPI1_vTransmitDMA_waiting (b : Board) (tx rx : List Nat) (L : Nat) (m : Machine)
    (s : Nat) (ss : List Nat)
    (hx : m.xCommTask = none) (hs : m.sReads = s :: ss) (hn : m.notifies = []) :
    SPI1_vTransmitDMA b tx rx L m = Outcome.blocked
      { m with xCommTask := some m.currentTask,
               tpm2 := { m.tpm2 with cnt := 0, running := true, loaded := L },
               dma0 := { m.dma0 with src := some (Addr.txBuf 1), dst := some Addr.spi1D,
                                     count := (L + UINT32 - 1) % UINT32, started := true },
               dma1 := { m.dma1 with src := some Addr.spi1D, dst := some (Addr.rxBuf 0),
                                     count := L },
               txMem := tx, rxMem := rx,
               spiD := tx.getD 0 0, txDmae := true, rxDmae := true,
               ssHigh := false, sReads := ss,
               log := m.log ++ [Event.tpm2Load L,
                 Event.dmaInit DMA_CHANNEL0 (Addr.txBuf 1) Addr.spi1D ((L + UINT32 - 1) % UINT32),
                 Event.dmaInit DMA_CHANNEL1 Addr.spi1D (Addr.rxBuf 0) L,
                 Event.ss false, Event.tpm2CntWrite 0, Event.tpm2Start, Event.spiSRead s,
                 Event.spiDWrite (tx.getD 0 0), Event.spiTxDmae true, Event.spiRxDmae true,
                 Event.dmaStart DMA_CHANNEL0] } := by
  simp [SPI1_vTransmitDMA, getCommTask, configASSERT, hx, hs, hn, xTaskGetCurrentTaskHandle,
    setCommTask, TPM2_vLoadCounter, bindBuffers, DMA0_vInitTransaction, tpm2WriteCnt, TPM2_vStart, spiReadS,
    spiWriteD, spiSetTxDmae, spiSetRxDmae, DMA0_vStart, ulTaskNotifyTake,
    Machine.emit, Machine.setDma, Machine.dma, BYTE_OFFSET]

theorem SPI1_vTransmitDMA_notified (b : Board) (tx rx : List Nat) (L : Nat) (m : Machine)
    (s : Nat) (ss vs : List Nat)
    (hx : m.xCommTask = none) (hs : m.sReads = s :: ss)
    (hn : m.notifies = COMM_TASK_NOTIFICATION :: vs) :
    SPI1_vTransmitDMA b tx rx L m = Outcome.ret ()
      { m with xCommTask := none,
               tpm2 := { m.tpm2 with cnt := 0, running := true, loaded := L },
               dma0 := { m.dma0 with src := some (Addr.txBuf 1), dst := some Addr.spi1D,
                                     count := (L + UINT32 - 1) % UINT32, started := false,
                                     done := false },
               dma1 := { m.dma1 with src := some Addr.spi1D, dst := some (Addr.rxBuf 0),
                                     count := L, done := false },
               txMem := tx, rxMem := rx,
               spiD := tx.getD 0 0, txDmae := false, rxDmae := false,
               ssHigh := false, sReads := ss, notifies := vs,
               log := m.log ++ [Event.tpm2Load L,
                 Event.dmaInit DMA_CHANNEL0 (Addr.txBuf 1) Addr.spi1D ((L + UINT32 - 1) % UINT32),
                 Event.dmaInit DMA_CHANNEL1 Addr.spi1D (Addr.rxBuf 0) L,
                 Event.ss false, Event.tpm2CntWrite 0, Event.tpm2Start, Event.spiSRead s,
                 Event.spiDWrite (tx.getD 0 0), Event.spiTxDmae true, Event.spiRxDmae true,
                 Event.dmaStart DMA_CHANNEL0,
                 Event.notifyTake COMM_TASK_NOTIFICATION b.xMaxBlockTime COMM_TASK_NOTIFICATION,
                 Event.spiTxDmae false, Event.spiRxDmae false, Event.dmaStop DMA_CHANNEL0,
                 Event.dmaDoneClear DMA_CHANNEL0, Event.dmaDoneClear DMA_CHANNEL1] } := by
  simp [SPI1_vTransmitDMA, getCommTask, configASSERT, hx, hs, hn, xTaskGetCurrentTaskHandle,
    setCommTask, TPM2_vLoadCounter, bindBuffers, DMA0_vInitTransaction, tpm2WriteCnt, TPM2_vStart, spiReadS,
    spiWriteD, spiSetTxDmae, spiSetRxDmae, DMA0_vStart, DMA0_vStop, dmaClearDone,
    ulTaskNotifyTake, Machine.emit, Machine.setDma, Machine.dma, BYTE_OFFSET,
    COMM_TASK_NOTIFICATION]

theorem SPI1_vTransmitDMA_timeout (b : Board) (tx rx : List Nat) (L : Nat) (m : Machine)
    (s v : Nat) (ss vs : List Nat)
    (hx : m.xCommTask = none) (hs : m.sReads = s :: ss)
    (hn : m.notifies = v :: vs) (hv : v ≠ COMM_TASK_NOTIFICATION) :
    SPI1_vTransmitDMA b tx rx L m = Outcome.halt
      { m with xCommTask := if v = 0 then some m.currentTask else none,
               tpm2 := { m.tpm2 with cnt := 0, running := true, loaded := L },
               dma0 := { m.dma0 with src := some (Addr.txBuf 1), dst := some Addr.spi1D,
                                     count := (L + UINT32 - 1) % UINT32, started := true },
               dma1 := { m.dma1 with src := some Addr.spi1D, dst := some (Addr.rxBuf 0),
                                     count := L },
               txMem := tx, rxMem := rx,
               spiD := tx.getD 0 0, txDmae := true, rxDmae := true,
               ssHigh := false, sReads := ss, notifies := vs,
               log := m.log ++ [Event.tpm2Load L,
                 Event.dmaInit DMA_CHANNEL0 (Addr.txBuf 1) Addr.spi1D ((L + UINT32 - 1) % UINT32),
                 Event.dmaInit DMA_CHANNEL1 Addr.spi1D (Addr.rxBuf 0) L,
                 Event.ss false, Event.tpm2CntWrite 0, Event.tpm2Start, Event.spiSRead s,
                 Event.spiDWrite (tx.getD 0 0), Event.spiTxDmae true, Event.spiRxDmae true,
                 Event.dmaStart DMA_CHANNEL0,
                 Event.notifyTake COMM_TASK_NOTIFICATION b.xMaxBlockTime v] } := by
  have hv1 : ¬ v = 1 := by simpa [COMM_TASK_NOTIFICATION] using hv
  simp [SPI1_vTransmitDMA, getCommTask, configASSERT, hx, hs, hn, xTaskGetCurrentTaskHandle,
    setCommTask, TPM2_vLoadCounter, bindBuffers, DMA0_vInitTransaction, tpm2WriteCnt, TPM2_vStart, spiReadS,
    spiWriteD, spiSetTxDmae, spiSetRxDmae, DMA0_vStart, DMA0_vStop, dmaClearDone,
    ulTaskNotifyTake, Machine.emit, Machine.setDma, Machine.dma, BYTE_OFFSET,
    COMM_TASK_NOTIFICATION, hv1]

theorem W_REGISTER_byte (ucRegister : Nat) (h : ucRegister < 256) :
    (W_REGISTER ||| ucRegister) % 256 = 0x20 ||| ucRegister := by
  have h1 : (0x20 : Nat) < 2 ^ 8 := by decide
  have h2 : ucRegister < 2 ^ 8 := by simpa using h
  have := Nat.or_lt_two_pow h1 h2
  exact Nat.mod_eq_of_lt (by simpa [W_REGISTER] using this)

@[simp] theorem nRF24L01_vSetChipEnable_LOW (m : Machine) :
    nRF24L01_vSetChipEnable LOW m
      = Outcome.ret () { m with ceHigh := false, log := m.log ++ [Event.ce false] } := rfl

@[simp] theorem nRF24L01_vSetChipEnable_HIGH (m : Machine) :
    nRF24L01_vSetChipEnable HIGH m
      = Outcome.ret () { m with ceHigh := true, log := m.log ++ [Event.ce true] } := rfl

theorem nRF24L01_vStartTransmission_eq (b : Board) (m : Machine) :
    nRF24L01_vStartTransmission b m =
      (tpm2WaitCnt m.cntReads.length b.TEN_MICROSECONDS
        { m with tpm2 := { m.tpm2 with cnt := 0, running := true, toie := false },
                 ceHigh := true,
                 log := m.log ++ [Event.tpm2Toie false, Event.tpm2CntWrite 0, Event.ce true,
                   Event.tpm2Start] }).andThen
        (fun _ m2 => Outcome.ret ()
          { m2 with tpm2 := { m2.tpm2 with cnt := 0, running := false, toie := true },
                    ceHigh := false,
                    log := m2.log ++ [Event.tpm2Stop, Event.ce false, Event.tpm2Toie true,
                      Event.tpm2CntWrite 0] }) := by
  simp only [nRF24L01_vStartTransmission, bind_apply, tpm2SetToie, tpm2WriteCnt, TPM2_vStart,
    nRF24L01_vSetChipEnable_HIGH, andThen_ret, Machine.emit, List.append_assoc,
    List.singleton_append, List.cons_append, List.nil_append]
  congr 1
  funext _ m2
  simp only [bind_apply, TPM2_vStop, nRF24L01_vSetChipEnable_LOW, tpm2SetToie, tpm2WriteCnt,
    andThen_ret, Machine.emit, List.append_assoc, List.singleton_append, List.cons_append,
    List.nil_append]

theorem SPI1_vTransmitDMA_blocked_owner (b : Board) (tx rx : List Nat) (L : Nat)
    (m m1 : Machine) (h : SPI1_vTransmitDMA b tx rx L m = Outcome.blocked m1) :
    m1.xCommTask ≠ none := by
  cases hx : m.xCommTask with
  | some t =>
    rw [SPI1_vTransmitDMA_busy b tx rx L m (by simp [hx])] at h
    cases h
  | none =>
    cases hs : m.sReads with
    | nil =>
      rw [SPI1_vTransmitDMA_no_status b tx rx L m hx hs] at h
      cases h
      simp
    | cons s ss =>
      cases hn : m.notifies with
      | nil =>
        rw [SPI1_vTransmitDMA_waiting b tx rx L m s ss hx hs hn] at h
        cases h
        simp
      | cons v vs =>
        by_cases hv : v = COMM_TASK_NOTIFICATION
        · subst hv
          rw [SPI1_vTransmitDMA_notified b tx rx L m s ss vs hx hs hn] at h
          cases h
        · rw [SPI1_vTransmitDMA_timeout b tx rx L m s v ss vs hx hs hn hv] at h
          cases h

/-- Whenever `SPI1_vTransmitDMA` returns, chip-select is low and the call has
not driven it high. -/
theorem SPI1_vTransmitDMA_select_stays_low (b : Board) (tx rx : List Nat) (L : Nat)
    (m m1 : Machine) (h : SPI1_vTransmitDMA b tx rx L m = Outcome.ret () m1) :
    m1.ssHigh = false ∧ Event.ss true ∉ m.since m1 := by
  cases hx : m.xCommTask with
  | some t =>
    rw [SPI1_vTransmitDMA_busy b tx rx L m (by simp [hx])] at h
    cases h
  | none =>
    cases hs : m.sReads with
    | nil =>
      rw [SPI1_vTransmitDMA_no_status b tx rx L m hx hs] at h
      cases h
    | cons s ss =>
      cases hn : m.notifies with
      | nil =>
        rw [SPI1_vTransmitDMA_waiting b tx rx L m s ss hx hs hn] at h
        cases h
      | cons v vs =>
        by_cases hv : v = COMM_TASK_NOTIFICATION
        · subst hv
          rw [SPI1_vTransmitDMA_notified b tx rx L m s ss vs hx hs hn] at h
          cases h
          simp [Machine.since]
        · rw [SPI1_vTransmitDMA_timeout b tx rx L m s v ss vs hx hs hn hv] at h
          cases h

theorem dmaStream_rest (tx : List Nat) (L : Nat) (c : DmaChannel) (hL : 1 ≤ L)
    (htx : tx.length = L) (hsrc : c.src = some (Addr.txBuf 1)) (hcount : c.count = L - 1) :
    tx.getD 0 0 :: dmaStream tx c = tx := by
  cases tx with
  | nil => simp at htx; omega
  | cons t ts =>
    have hlen : ts.length = L - 1 := by simp at htx; omega
    simp [dmaStream, hsrc, hcount, ← hlen]

theorem dmaSlots_all (L : Nat) (c : DmaChannel) (hdst : c.dst = some (Addr.rxBuf 0))
    (hcount : c.count = L) : dmaSlots c = List.range L := by
  simp [dmaSlots, hdst, hcount]

/-- For every length from 31 up to 2^32 - 2 the assertion of
`nRF24L01_vSendPayload` fails and the machine is left untouched. -/
theorem nRF24L01_vSendPayload_rejects_long (b : Board) (pucPayload : List Nat) (n : Nat)
    (m : Machine) (hlo : 31 ≤ n) (hhi : n < UINT32 - 1) :
    nRF24L01_vSendPayload b pucPayload n m = Outcome.halt m := by
  have h1 : (n + 1) % UINT32 = n + 1 := Nat.mod_eq_of_lt (by unfold UINT32 at hhi ⊢; omega)
  have h3 : decide (n + 1 < MAX_PAYLOAD_LEN) = false := by
    unfold MAX_PAYLOAD_LEN; simp; omega
  simp [nRF24L01_vSendPayload, h1, h3, configASSERT]

theorem SPI1_vTransmitPolling_single_read (b : Board) (tx rx : List Nat) (L c : Nat)
    (m : Machine) (htx : L ≤ tx.length) (hrx : L ≤ rx.length)
    (hr : m.spiReady b) (hs : 2 * L ≤ m.sReads.length) (hd : L ≤ m.dReads.length)
    (hc : m.cntReads = [c]) (hwrap : (b.TIME_PER_BYTE * L) % UINT32 ≤ c) :
    ∃ (rx1 : List Nat) (m1 : Machine),
      SPI1_vTransmitPolling b tx rx L m = Outcome.ret rx1 m1 ∧
      Event.ss true ∈ m.since m1 ∧
      ∀ v, Event.tpm2CntRead v ∈ m.since m1 → v = c := by
  obtain ⟨rx1, m1, hret⟩ := SPI1_vTransmitPolling_returns b tx rx L m hr hs hd
    ⟨c, by simp [hc], hwrap⟩
  obtain ⟨m2, δ, reads, hspi, _, _, h⟩ := SPI1_vTransmitPolling_shape b tx rx L m htx hrx
  rcases h with ⟨h, _⟩ | ⟨rs, v, h, _, _, _, ⟨post, hsplit⟩, hlog⟩
  · rw [hret] at h; cases h
  · rw [hret] at h
    cases h
    rw [hc] at hsplit
    have hreads : reads = [] := by
      cases reads with
      | nil => rfl
      | cons r rest =>
        have := congrArg List.length hsplit
        simp at this
    subst hreads
    have hv : v = c := by
      simp at hsplit
      exact hsplit.1.symm
    subst hv
    refine ⟨_, _, hret, ?_, ?_⟩
    · rw [since_polling m m1 δ [] v hlog]
      simp
    · intro w hw
      rw [since_polling m m1 δ [] v hlog] at hw
      simp only [List.map_nil, List.append_nil, List.mem_append, List.mem_cons,
        List.mem_singleton, Event.tpm2CntRead.injEq, List.not_mem_nil, or_false] at hw
      rcases hw with (hw | hw) | hw
      · simp at hw
      · have := hspi _ hw
        simp [Event.isSpi] at this
      · rcases hw with hw | hw | hw | hw
        · exact hw
        · cases hw
        · cases hw
        · cases hw

/-- For every value of `TIME_PER_BYTE` from 2 up there is a 32-bit length whose
threshold `TIME_PER_BYTE * L` wraps below the product. -/
theorem threshold_wraps_for_some_length (b : Board) (h2 : 2 ≤ b.TIME_PER_BYTE)
    (h32 : b.TIME_PER_BYTE < UINT32) :
    ∃ L, L < UINT32 ∧ (b.TIME_PER_BYTE * L) % UINT32 < b.TIME_PER_BYTE * L := by
  refine ⟨UINT32 / b.TIME_PER_BYTE + 1, ?_, ?_⟩
  · have h : UINT32 / b.TIME_PER_BYTE ≤ UINT32 / 2 :=
      Nat.div_le_div_left h2 (by decide)
    have h' : UINT32 / 2 = 2147483648 := by decide
    have h'' : UINT32 = 4294967296 := rfl
    omega
  · have h : UINT32 < b.TIME_PER_BYTE * (UINT32 / b.TIME_PER_BYTE + 1) :=
      Nat.lt_mul_div_succ UINT32 (by omega)
    have hm : (b.TIME_PER_BYTE * (UINT32 / b.TIME_PER_BYTE + 1)) % UINT32 < UINT32 :=
      Nat.mod_lt _ (by decide)
    omega

@[simp] theorem transportTrace_nil : transportTrace [] = [] := rfl

@[simp] theorem transportTrace_append (l₁ l₂ : List Event) :
    transportTrace (l₁ ++ l₂) = transportTrace l₁ ++ transportTrace l₂ := by
  simp [transportTrace]

@[simp] theorem transportTrace_cntReads (l : List Nat) :
    transportTrace (l.map Event.tpm2CntRead) = [] := by
  induction l with
  | nil => rfl
  | cons v vs ih => simp [transportTrace, Event.isTransport]

theorem transportTrace_of_spi :
    ∀ l : List Event, (∀ e ∈ l, Event.isSpi e = true) →
      transportTrace l = transportTrace (busTrace l) := by
  intro l
  induction l with
  | nil => intro _; rfl
  | cons e es ih =>
    intro h
    have he := h e (by simp)
    have hes := ih (fun x hx => h x (by simp [hx]))
    cases e <;> simp [Event.isSpi] at he <;>
      simp [transportTrace, busTrace, Event.isTransport, Event.onBus] at hes ⊢ <;> exact hes

theorem transportTrace_exchange :
    ∀ (ts rs : List Nat), ts.length = rs.length →
      transportTrace (exchange ts rs) = ts.map Event.spiDWrite := by
  intro ts
  induction ts with
  | nil => intro rs _; cases rs <;> rfl
  | cons t ts ih =>
    intro rs h
    cases rs with
    | nil => simp at h
    | cons r rs =>
      have := ih rs (by simpa using h)
      simp [exchange, transportTrace, Event.isTransport] at this ⊢
      exact this

theorem andThen_eq_ret {α β : Type} (o : Outcome α) (f : α → Machine → Outcome β) (a : β)
    (m2 : Machine) (h : o.andThen f = Outcome.ret a m2) :
    ∃ a1 m1, o = Outcome.ret a1 m1 ∧ f a1 m1 = Outcome.ret a m2 := by
  cases o with
  | ret a1 m1 => exact ⟨a1, m1, rfl, h⟩
  | halt m1 => cases h
  | blocked m1 => cases h

theorem nRF24L01_vWriteRegister_ret_trace (b : Board) (ucRegister ucValue : Nat)
    (m m1 : Machine) (h : nRF24L01_vWriteRegister b ucRegister ucValue m = Outcome.ret () m1) :
    ∃ δ : List Event, m1.log = m.log ++ δ ∧
      transportTrace δ = [Event.ss false, Event.spiDWrite ((W_REGISTER ||| ucRegister) % 256),
        Event.spiDWrite (ucValue % 256), Event.ss true] := by
  have heq : nRF24L01_vWriteRegister b ucRegister ucValue m
      = (SPI1_vTransmitPolling b [(W_REGISTER ||| ucRegister) % 256, ucValue % 256]
          (List.replicate MAX_PAYLOAD_LEN 0) 2 m).andThen (fun _ m1 => Outcome.ret () m1) := rfl
  rw [heq] at h
  obtain ⟨rx1, m2, h1, h2⟩ := andThen_eq_ret _ _ _ _ h
  cases h2
  obtain ⟨m3, δ, reads, hspi, _, _, hsh⟩ :=
    SPI1_vTransmitPolling_shape b [(W_REGISTER ||| ucRegister) % 256, ucValue % 256]
      (List.replicate MAX_PAYLOAD_LEN 0) 2 m (by simp) (by simp [MAX_PAYLOAD_LEN])
  rcases hsh with ⟨hb, _⟩ | ⟨rs, v, hr, hl, hbus, _, _, hlog⟩
  · rw [h1] at hb; cases hb
  · rw [h1] at hr
    cases hr
    refine ⟨_, by rw [hlog]; simp only [List.append_assoc]; rfl, ?_⟩
    have hδ : transportTrace δ = [Event.spiDWrite ((W_REGISTER ||| ucRegister) % 256),
        Event.spiDWrite (ucValue % 256)] := by
      rw [transportTrace_of_spi δ hspi, hbus]
      exact transportTrace_exchange _ rs (by simp [hl])
    simp only [transportTrace_append, hδ, transportTrace_cntReads]
    rfl

@[simp] theorem transportTrace_sReads (l : List Nat) :
    transportTrace (l.map Event.spiSRead) = [] := by
  induction l with
  | nil => rfl
  | cons v vs ih => simp [transportTrace, Event.isTransport]

theorem SPI1_vTransmitByte_ret_trace (b : Board) (ucByte : Nat) (m m1 : Machine)
    (h : SPI1_vTransmitByte b ucByte m = Outcome.ret () m1) :
    ∃ δ : List Event, m1.log = m.log ++ δ ∧
      transportTrace δ = [Event.ss false, Event.spiDWrite (ucByte % 256), Event.ss true] := by
  obtain ⟨m2, reads, hlog2, _, hw⟩ :=
    spiWaitFlag_shape b.SPI_S_SPTEF_SHIFT b.SPI_S_SPTEF_WIDTH m.sReads.length m rfl
  rcases hw with hw | hw
  · simp [SPI1_vTransmitByte, hw] at h
  · obtain ⟨m3, δ3, hlog3, _, hspi3, hr⟩ := SPI1_ucReadPolling_shape b
      { m2 with ssHigh := false, spiD := ucByte % 256,
                log := m2.log ++ [Event.ss false] ++ [Event.spiDWrite (ucByte % 256)] }
    have hrun : SPI1_vTransmitByte b ucByte m
        = (SPI1_ucReadPolling b
            { m2 with ssHigh := false, spiD := ucByte % 256,
                      log := m2.log ++ [Event.ss false] ++ [Event.spiDWrite (ucByte % 256)] }).andThen
            (fun _ m4 => Outcome.ret ()
              { m4 with ssHigh := true, log := m4.log ++ [Event.ss true] }) := by
      simp only [SPI1_vTransmitByte, bind_apply, hw, andThen_ret, SPI1_vSetSlave_LOW, spiWriteD,
        Machine.emit]
      congr 1
    rw [hrun] at h
    rcases hr with ⟨hr, _⟩ | ⟨v, hr, hbus⟩
    · rw [hr] at h; cases h
    · rw [hr] at h
      cases h
      refine ⟨reads.map Event.spiSRead ++ [Event.ss false] ++ [Event.spiDWrite (ucByte % 256)] ++ δ3
        ++ [Event.ss true], ?_, ?_⟩
      · simp [hlog3, hlog2]
      · have hδ : transportTrace δ3 = [] := by
          rw [transportTrace_of_spi δ3 hspi3, hbus]
          rfl
        simp only [transportTrace_append, transportTrace_sReads, hδ]
        rfl

theorem SPI1_vTransmitDMA_ret_trace (b : Board) (tx rx : List Nat) (L : Nat) (m m1 : Machine)
    (h : SPI1_vTransmitDMA b tx rx L m = Outcome.ret () m1) :
    ∃ δ : List Event, m1.log = m.log ++ δ ∧
      transportTrace δ
        = [Event.dmaInit DMA_CHANNEL0 (Addr.txBuf 1) Addr.spi1D ((L + UINT32 - 1) % UINT32),
           Event.dmaInit DMA_CHANNEL1 Addr.spi1D (Addr.rxBuf 0) L,
           Event.ss false, Event.spiDWrite (tx.getD 0 0), Event.dmaStart DMA_CHANNEL0] := by
  cases hx : m.xCommTask with
  | some t =>
    rw [SPI1_vTransmitDMA_busy b tx rx L m (by simp [hx])] at h
    cases h
  | none =>
    cases hs : m.sReads with
    | nil =>
      rw [SPI1_vTransmitDMA_no_status b tx rx L m hx hs] at h
      cases h
    | cons s ss =>
      cases hn : m.notifies with
      | nil =>
        rw [SPI1_vTransmitDMA_waiting b tx rx L m s ss hx hs hn] at h
        cases h
      | cons v vs =>
        by_cases hv : v = COMM_TASK_NOTIFICATION
        · subst hv
          rw [SPI1_vTransmitDMA_notified b tx rx L m s ss vs hx hs hn] at h
          cases h
          exact ⟨_, rfl, rfl⟩
        · rw [SPI1_vTransmitDMA_timeout b tx rx L m s v ss vs hx hs hn hv] at h
          cases h

theorem nRF24L01_vStartTransmission_ret_trace (b : Board) (m m1 : Machine)
    (h : nRF24L01_vStartTransmission b m = Outcome.ret () m1) :
    ∃ δ : List Event, m1.log = m.log ++ δ ∧
      transportTrace δ = [Event.ce true, Event.ce false] := by
  rw [nRF24L01_vStartTransmission_eq] at h
  rcases tpm2WaitCnt_shape b.TEN_MICROSECONDS m.cntReads.length
      { m with tpm2 := { m.tpm2 with cnt := 0, running := true, toie := false },
               ceHigh := true,
               log := m.log ++ [Event.tpm2Toie false, Event.tpm2CntWrite 0, Event.ce true,
                 Event.tpm2Start] } rfl with
    ⟨m2, h3, _, _⟩ | ⟨m2, pre, v, post, h3, h4, _, _, _, _⟩
  · rw [h3] at h; cases h
  · rw [h3] at h
    cases h
    refine ⟨[Event.tpm2Toie false, Event.tpm2CntWrite 0, Event.ce true, Event.tpm2Start]
      ++ pre.map Event.tpm2CntRead ++ [Event.tpm2CntRead v]
      ++ [Event.tpm2Stop, Event.ce false, Event.tpm2Toie true, Event.tpm2CntWrite 0], ?_, ?_⟩
    · simp [h4]
    · simp only [transportTrace_append, transportTrace_cntReads]
      rfl

theorem RX_PW_PX_width (n : Nat) (h : n ≤ 30) : RX_PW_PX (n + 1) = n + 1 := by
  interval_cases n <;> rfl

theorem nRF24L01_vSendPayload_unfold (b : Board) (pucPayload : List Nat) (n : Nat)
    (m : Machine) (h : n ≤ 30) :
    nRF24L01_vSendPayload b pucPayload n m
      = (nRF24L01_vWriteRegister b RX_PW_P0 (n + 1) m).andThen (fun _ m1 =>
        (nRF24L01_vSendCommand b FLUSH_TX m1).andThen (fun _ m2 =>
        (nRF24L01_vResetStatusFlags b m2).andThen (fun _ m3 =>
        (SPI1_vTransmitDMA b
          (buildMessage pucPayload n 0 ((List.replicate (n + 1) 0).set 0 0xA0))
          (List.replicate (n + 1) 0) (n + 1) m3).andThen (fun _ m4 =>
        nRF24L01_vStartTransmission b m4)))) := by
  have h1 : (n + 1) % UINT32 = n + 1 := Nat.mod_eq_of_lt (by unfold UINT32; omega)
  have h2 : (n + 1 + UINT32 - 1) % UINT32 = n := by
    unfold UINT32; omega
  have h3 : decide (n + 1 < MAX_PAYLOAD_LEN) = true := by
    unfold MAX_PAYLOAD_LEN; simp; omega
  simp only [nRF24L01_vSendPayload, h1, h2, h3, W_TX_PAYLOAD, RX_PW_PX_width n h]
  rfl

theorem nRF24L01_vSendPayload_ret_trace (b : Board) (pucPayload : List Nat) (n : Nat)
    (m m1 : Machine) (h : n ≤ 30)
    (hret : nRF24L01_vSendPayload b pucPayload n m = Outcome.ret () m1) :
    transportTrace (m.since m1)
      = [Event.ss false, Event.spiDWrite 0x31, Event.spiDWrite (n + 1), Event.ss true,
         Event.ss false, Event.spiDWrite 0xE1, Event.ss true,
         Event.ss false, Event.spiDWrite 0x27, Event.spiDWrite 0x70, Event.ss true,
         Event.dmaInit DMA_CHANNEL0 (Addr.txBuf 1) Addr.spi1D n,
         Event.dmaInit DMA_CHANNEL1 Addr.spi1D (Addr.rxBuf 0) (n + 1),
         Event.ss false,
         Event.spiDWrite
           ((buildMessage pucPayload n 0 ((List.replicate (n + 1) 0).set 0 0xA0)).getD 0 0),
         Event.dmaStart DMA_CHANNEL0,
         Event.ce true, Event.ce false] := by
  rw [nRF24L01_vSendPayload_unfold b pucPayload n m h] at hret
  obtain ⟨_, ma, ha, hret⟩ := andThen_eq_ret _ _ _ _ hret
  obtain ⟨_, mb, hb, hret⟩ := andThen_eq_ret _ _ _ _ hret
  obtain ⟨_, mc, hc, hret⟩ := andThen_eq_ret _ _ _ _ hret
  obtain ⟨_, md, hd, hret⟩ := andThen_eq_ret _ _ _ _ hret
  obtain ⟨δa, hla, hta⟩ := nRF24L01_vWriteRegister_ret_trace b RX_PW_P0 (n + 1) m ma ha
  obtain ⟨δb, hlb, htb⟩ := SPI1_vTransmitByte_ret_trace b FLUSH_TX ma mb hb
  obtain ⟨δc, hlc, htc⟩ := nRF24L01_vWriteRegister_ret_trace b STATUS
    (STATUS_RX_DR 1 ||| STATUS_TX_DS 1 ||| STATUS_MAX_RT 1) mb mc hc
  obtain ⟨δd, hld, htd⟩ := SPI1_vTransmitDMA_ret_trace b _ _ (n + 1) mc md hd
  obtain ⟨δe, hle, hte⟩ := nRF24L01_vStartTransmission_ret_trace b md m1 hret
  have hlog : m1.log = m.log ++ (δa ++ δb ++ δc ++ δd ++ δe) := by
    rw [hle, hld, hlc, hlb, hla]; simp only [List.append_assoc]
  have hw : (n + 1) % 256 = n + 1 := Nat.mod_eq_of_lt (by omega)
  have hcount : (n + 1 + UINT32 - 1) % UINT32 = n := by
    unfold UINT32; omega
  rw [since_of_log m m1 _ hlog]
  simp only [transportTrace_append, hta, htb, htc, htd, hte, hw, hcount]
  rfl

theorem spiReady_of_drop (b : Board) (m m1 : Machine) (k : Nat) (hr : m.spiReady b)
    (h : m1.sReads = m.sReads.drop k) : m1.spiReady b := by
  intro v hv
  rw [h] at hv
  exact hr v (List.mem_of_mem_drop hv)

theorem loop_returns_frame (b : Board) (tx : List Nat) :
    ∀ (n i : Nat) (rx : List Nat) (m : Machine), m.spiReady b →
      2 * n ≤ m.sReads.length → n ≤ m.dReads.length →
      ∃ (rx1 : List Nat) (m1 : Machine),
        SPI1_vTransmitPolling.loop b tx n i rx m = Outcome.ret rx1 m1 ∧
        m1.sReads = m.sReads.drop (2 * n) ∧ m1.dReads = m.dReads.drop n ∧
        m1.cntReads = m.cntReads ∧ m1.notifies = m.notifies ∧
        m1.xCommTask = m.xCommTask := by
  intro n
  induction n with
  | zero =>
    intro i rx m _ _ _
    exact ⟨rx, m, rfl, by simp, by simp, rfl, rfl, rfl⟩
  | succ n ih =>
    intro i rx m hr hs hd
    obtain ⟨s1, rest1, hs1⟩ : ∃ s1 rest1, m.sReads = s1 :: rest1 := by
      cases h : m.sReads with
      | nil => simp [h] at hs
      | cons a l => exact ⟨a, l, rfl⟩
    obtain ⟨s2, rest, hs2⟩ : ∃ s2 rest, rest1 = s2 :: rest := by
      cases h : rest1 with
      | nil => simp [hs1, h] at hs; omega
      | cons a l => exact ⟨a, l, rfl⟩
    obtain ⟨d, ds, hd1⟩ : ∃ d ds, m.dReads = d :: ds := by
      cases h : m.dReads with
      | nil => simp [h] at hd
      | cons a l => exact ⟨a, l, rfl⟩
    subst hs2
    have hf1 := (hr s1 (by simp [hs1])).1
    have hf2 := (hr s2 (by simp [hs1])).2
    obtain ⟨rx1, m1, h1, h2, h3, h4, h5, h6⟩ := ih (i + 1) (rx.set i d)
      { m with sReads := rest, dReads := ds, spiD := tx.getD i 0,
               log := m.log ++ [Event.spiSRead s1, Event.spiDWrite (tx.getD i 0),
                 Event.spiSRead s2, Event.spiDRead d] }
      (by
        intro v hv
        exact hr v (by simp only [hs1]; simp at hv ⊢; exact Or.inr (Or.inr hv)))
      (by simp [hs1] at hs ⊢; omega)
      (by simp [hd1] at hd ⊢; omega)
    refine ⟨rx1, m1, ?_, ?_, ?_, h4, h5, h6⟩
    · rw [← h1, SPI1_vTransmitPolling.loop]
      simp only [bind_apply, spiWaitFlag_ready _ _ m s1 (s2 :: rest) hs1 hf1, andThen_ret,
        spiWriteD, Machine.emit, SPI1_ucReadPolling]
      have hw := spiWaitFlag_ready b.SPI_S_SPRF_SHIFT b.SPI_S_SPRF_WIDTH
        { m with sReads := s2 :: rest, spiD := tx.getD i 0,
                 log := m.log ++ [Event.spiSRead s1] ++ [Event.spiDWrite (tx.getD i 0)] }
        s2 rest rfl hf2
      simp only [List.length_cons] at hw ⊢
      rw [hw]
      simp [spiReadD, hd1, Machine.emit]
    · rw [h2, hs1]
      have : 2 * (n + 1) = 2 * n + 1 + 1 := by omega
      rw [this]
      rfl
    · rw [h3, hd1]
      rfl

theorem tpm2WaitCnt_first (bound : Nat) (m : Machine) (c : Nat) (cs : List Nat)
    (hc : m.cntReads = c :: cs) (hb : bound ≤ c) :
    tpm2WaitCnt m.cntReads.length bound m
      = Outcome.ret () { m with cntReads := cs, tpm2 := { m.tpm2 with cnt := c },
                                log := m.log ++ [Event.tpm2CntRead c] } := by
  have hlt : ¬ c < bound := by omega
  simp [hc, tpm2WaitCnt, tpm2ReadCnt, hlt, Machine.emit]

theorem SPI1_vTransmitPolling_returns_frame (b : Board) (tx rx : List Nat) (L : Nat)
    (m : Machine) (c : Nat) (cs : List Nat)
    (hr : m.spiReady b) (hs : 2 * L ≤ m.sReads.length) (hd : L ≤ m.dReads.length)
    (hc : m.cntReads = c :: cs) (hb : (b.TIME_PER_BYTE * L) % UINT32 ≤ c) :
    ∃ (rx1 : List Nat) (m1 : Machine),
      SPI1_vTransmitPolling b tx rx L m = Outcome.ret rx1 m1 ∧
      m1.sReads = m.sReads.drop (2 * L) ∧ m1.dReads = m.dReads.drop L ∧
      m1.cntReads = cs ∧ m1.notifies = m.notifies ∧ m1.xCommTask = m.xCommTask := by
  rw [SPI1_vTransmitPolling_eq]
  obtain ⟨rx1, m1, h1, h2, h3, h4, h5, h6⟩ := loop_returns_frame b tx L 0 rx
    { m with tpm2 := { m.tpm2 with cnt := 0, running := true, toie := false },
             ssHigh := false,
             log := m.log ++ [Event.tpm2Toie false, Event.tpm2CntWrite 0, Event.tpm2Start,
               Event.ss false] } hr hs hd
  rw [h1]
  simp only [andThen_ret]
  rw [tpm2WaitCnt_first _ m1 c cs (by rw [h4]; exact hc) hb]
  exact ⟨_, _, rfl, h2, h3, rfl, h5, h6⟩

theorem nRF24L01_vWriteRegister_returns_frame (b : Board) (ucRegister ucValue : Nat)
    (m : Machine) (c : Nat) (cs : List Nat)
    (hr : m.spiReady b) (hs : 4 ≤ m.sReads.length) (hd : 2 ≤ m.dReads.length)
    (hc : m.cntReads = c :: cs) (hb : (b.TIME_PER_BYTE * 2) % UINT32 ≤ c) :
    ∃ m1 : Machine,
      nRF24L01_vWriteRegister b ucRegister ucValue m = Outcome.ret () m1 ∧
      m1.sReads = m.sReads.drop 4 ∧ m1.dReads = m.dReads.drop 2 ∧
      m1.cntReads = cs ∧ m1.notifies = m.notifies ∧ m1.xCommTask = m.xCommTask := by
  obtain ⟨rx1, m1, h1, h2, h3, h4, h5, h6⟩ := SPI1_vTransmitPolling_returns_frame b
    [(W_REGISTER ||| ucRegister) % 256, ucValue % 256] (List.replicate MAX_PAYLOAD_LEN 0) 2
    m c cs hr (by omega) hd hc hb
  have heq : nRF24L01_vWriteRegister b ucRegister ucValue m
      = (SPI1_vTransmitPolling b [(W_REGISTER ||| ucRegister) % 256, ucValue % 256]
          (List.replicate MAX_PAYLOAD_LEN 0) 2 m).andThen (fun _ m1 => Outcome.ret () m1) := rfl
  exact ⟨m1, by rw [heq, h1]; rfl, h2, h3, h4, h5, h6⟩

theorem SPI1_vTransmitByte_returns_frame (b : Board) (ucByte : Nat) (m : Machine)
    (hr : m.spiReady b) (hs : 2 ≤ m.sReads.length) (hd : 1 ≤ m.dReads.length) :
    ∃ m1 : Machine,
      SPI1_vTransmitByte b ucByte m = Outcome.ret () m1 ∧
      m1.sReads = m.sReads.drop 2 ∧ m1.dReads = m.dReads.drop 1 ∧
      m1.cntReads = m.cntReads ∧ m1.notifies = m.notifies ∧
      m1.xCommTask = m.xCommTask := by
  obtain ⟨s1, rest1, hs1⟩ : ∃ s1 rest1, m.sReads = s1 :: rest1 := by
    cases h : m.sReads with
    | nil => simp [h] at hs
    | cons a l => exact ⟨a, l, rfl⟩
  obtain ⟨s2, rest, hs2⟩ : ∃ s2 rest, rest1 = s2 :: rest := by
    cases h : rest1 with
    | nil => simp [hs1, h] at hs
    | cons a l => exact ⟨a, l, rfl⟩
  obtain ⟨d, ds, hd1⟩ : ∃ d ds, m.dReads = d :: ds := by
    cases h : m.dReads with
    | nil => simp [h] at hd
    | cons a l => exact ⟨a, l, rfl⟩
  subst hs2
  have hf1 := (hr s1 (by simp [hs1])).1
  have hf2 := (hr s2 (by simp [hs1])).2
  refine ⟨{ m with sReads := rest, dReads := ds, spiD := ucByte % 256, ssHigh := true,
                   log := m.log ++ [Event.spiSRead s1, Event.ss false, Event.spiDWrite (ucByte % 256),
                     Event.spiSRead s2, Event.spiDRead d, Event.ss true] }, ?_, ?_, ?_,
    rfl, rfl, rfl⟩
  · simp only [SPI1_vTransmitByte, bind_apply,
      spiWaitFlag_ready _ _ m s1 (s2 :: rest) hs1 hf1, andThen_ret, SPI1_vSetSlave_LOW,
      spiWriteD, Machine.emit, SPI1_ucReadPolling]
    have hw := spiWaitFlag_ready b.SPI_S_SPRF_SHIFT b.SPI_S_SPRF_WIDTH
      { m with sReads := s2 :: rest, spiD := ucByte % 256, ssHigh := false,
               log := m.log ++ [Event.spiSRead s1] ++ [Event.ss false]
                 ++ [Event.spiDWrite (ucByte % 256)] }
      s2 rest rfl hf2
    simp only [List.length_cons] at hw ⊢
    rw [hw]
    simp [spiReadD, hd1, Machine.emit]
  · simp [hs1]
  · simp [hd1]

theorem nRF24L01_vStartTransmission_returns (b : Board) (m : Machine) (c : Nat)
    (cs : List Nat) (hc : m.cntReads = c :: cs) (hb : b.TEN_MICROSECONDS ≤ c) :
    ∃ m1 : Machine, nRF24L01_vStartTransmission b m = Outcome.ret () m1 := by
  rw [nRF24L01_vStartTransmission_eq]
  have hw := tpm2WaitCnt_first b.TEN_MICROSECONDS
    { m with tpm2 := { m.tpm2 with cnt := 0, running := true, toie := false },
             ceHigh := true,
             log := m.log ++ [Event.tpm2Toie false, Event.tpm2CntWrite 0, Event.ce true,
               Event.tpm2Start] } c cs hc hb
  rw [hw]
  exact ⟨_, rfl⟩

theorem nRF24L01_vSendPayload_returns (b : Board) (pucPayload : List Nat) (n : Nat)
    (m : Machine) (c1 c2 c3 : Nat) (cs ns : List Nat) (h : n ≤ 30)
    (hx : m.xCommTask = none) (hr : m.spiReady b)
    (hs : 11 ≤ m.sReads.length) (hd : 5 ≤ m.dReads.length)
    (hc : m.cntReads = c1 :: c2 :: c3 :: cs)
    (h1 : (b.TIME_PER_BYTE * 2) % UINT32 ≤ c1) (h2 : (b.TIME_PER_BYTE * 2) % UINT32 ≤ c2)
    (h3 : b.TEN_MICROSECONDS ≤ c3) (hn : m.notifies = COMM_TASK_NOTIFICATION :: ns) :
    ∃ m1 : Machine, nRF24L01_vSendPayload b pucPayload n m = Outcome.ret () m1 := by
  rw [nRF24L01_vSendPayload_unfold b pucPayload n m h]
  obtain ⟨ma, ha, has, had, hac, han, hax⟩ :=
    nRF24L01_vWriteRegister_returns_frame b RX_PW_P0 (n + 1) m c1 (c2 :: c3 :: cs) hr
      (by omega) (by omega) hc h1
  have hra : ma.spiReady b := spiReady_of_drop b m ma 4 hr has
  obtain ⟨mb, hb, hbs, hbd, hbc, hbn, hbx⟩ :=
    SPI1_vTransmitByte_returns_frame b FLUSH_TX ma hra
      (by rw [has, List.length_drop]; omega) (by rw [had, List.length_drop]; omega)
  have hrb : mb.spiReady b := spiReady_of_drop b ma mb 2 hra hbs
  obtain ⟨mc, hcr, hcs, hcd, hcc, hcn, hcx⟩ :=
    nRF24L01_vWriteRegister_returns_frame b STATUS
      (STATUS_RX_DR 1 ||| STATUS_TX_DS 1 ||| STATUS_MAX_RT 1) mb c2 (c3 :: cs) hrb
      (by rw [hbs, has, List.length_drop, List.length_drop]; omega)
      (by rw [hbd, had, List.length_drop, List.length_drop]; omega)
      (by rw [hbc, hac]) h2
  obtain ⟨s, ss, hss⟩ : ∃ s ss, mc.sReads = s :: ss := by
    have hlen : 1 ≤ mc.sReads.length := by
      rw [hcs, hbs, has, List.length_drop, List.length_drop, List.length_drop]; omega
    cases hq : mc.sReads with
    | nil => simp [hq] at hlen
    | cons a l => exact ⟨a, l, rfl⟩
  have hd4 := SPI1_vTransmitDMA_notified b
    (buildMessage pucPayload n 0 ((List.replicate (n + 1) 0).set 0 0xA0))
    (List.replicate (n + 1) 0) (n + 1) mc s ss ns
    (by rw [hcx, hbx, hax]; exact hx) hss (by rw [hcn, hbn, han]; exact hn)
  have hsc : nRF24L01_vSendCommand b FLUSH_TX ma = Outcome.ret () mb := hb
  have hrs : nRF24L01_vResetStatusFlags b mb = Outcome.ret () mc := hcr
  rw [ha]
  simp only [andThen_ret]
  rw [hsc]
  simp only [andThen_ret]
  rw [hrs]
  simp only [andThen_ret]
  rw [hd4]
  simp only [andThen_ret]
  exact nRF24L01_vStartTransmission_returns b _ c3 cs hcc h3

theorem SPI1_vTransmitDMA_buffers (b : Board) (tx rx : List Nat) (L : Nat) (m : Machine)
    (hx : m.xCommTask = none) :
    (SPI1_vTransmitDMA b tx rx L m).machine.txMem = tx ∧
      (SPI1_vTransmitDMA b tx rx L m).machine.rxMem = rx ∧
      (SPI1_vTransmitDMA b tx rx L m).machine.dma0.src = some (Addr.txBuf 1) ∧
      (SPI1_vTransmitDMA b tx rx L m).machine.dma0.dst = some Addr.spi1D ∧
      (SPI1_vTransmitDMA b tx rx L m).machine.dma0.count = (L + UINT32 - 1) % UINT32 ∧
      (SPI1_vTransmitDMA b tx rx L m).machine.dma1.src = some Addr.spi1D ∧
      (SPI1_vTransmitDMA b tx rx L m).machine.dma1.dst = some (Addr.rxBuf 0) ∧
      (SPI1_vTransmitDMA b tx rx L m).machine.dma1.count = L ∧
      (m.sReads ≠ [] → (SPI1_vTransmitDMA b tx rx L m).machine.spiD = tx.getD 0 0) := by
  cases hs : m.sReads with
  | nil =>
    rw [SPI1_vTransmitDMA_no_status b tx rx L m hx hs]
    exact ⟨rfl, rfl, rfl, rfl, rfl, rfl, rfl, rfl, fun h => absurd rfl h⟩
  | cons s ss =>
    cases hn : m.notifies with
    | nil =>
      rw [SPI1_vTransmitDMA_waiting b tx rx L m s ss hx hs hn]
      exact ⟨rfl, rfl, rfl, rfl, rfl, rfl, rfl, rfl, fun _ => rfl⟩
    | cons v vs =>
      by_cases hv : v = COMM_TASK_NOTIFICATION
      · subst hv
        rw [SPI1_vTransmitDMA_notified b tx rx L m s ss vs hx hs hn]
        exact ⟨rfl, rfl, rfl, rfl, rfl, rfl, rfl, rfl, fun _ => rfl⟩
      · rw [SPI1_vTransmitDMA_timeout b tx rx L m s v ss vs hx hs hn hv]
        exact ⟨rfl, rfl, rfl, rfl, rfl, rfl, rfl, rfl, fun _ => rfl⟩

theorem dmaStream_tail (t : Nat) (ts : List Nat) (c : DmaChannel)
    (hsrc : c.src = some (Addr.txBuf 1)) (hcount : c.count = ts.length) :
    dmaStream (t :: ts) c = ts := by
  simp [dmaStream, hsrc, hcount]

/-- C2: for every register, every address length n with 0 <= n <= 5 and every n
address bytes, `nRF24L01_vWriteAddressRegister` hands `SPI1_vTransmitDMA` a
frame of length n + 1 whose first byte is 0x20 | reg and whose following bytes
are the address bytes in the given order. The call is the DMA transfer of that
frame; however a call with a free pending-owner slot ends, the array DMA
channel 0 reads is 0x20 | reg followed by the address bytes, the array channel
1 fills has n + 1 bytes, channel 0 moves the address bytes in their order, and
once the status register was read the bus carries 0x20 | reg followed by the
address bytes; and the call returns when the transfer is notified. -/
theorem nRF24L01_vWriteAddressRegister_frame (b : Board) (ucRegister : Nat)
    (pucValue : List Nat) (n : Nat) (hreg : ucRegister < 256)
    (hlen : pucValue.length = n) (hn : n ≤ 5) :
    nRF24L01_vWriteAddressRegister b ucRegister pucValue n
        = SPI1_vTransmitDMA b ((0x20 ||| ucRegister) :: pucValue)
            (List.replicate (n + 1) 0) (n + 1) ∧
      (∀ m m1 : Machine, m.xCommTask = none →
        (nRF24L01_vWriteAddressRegister b ucRegister pucValue n m).machine = m1 →
        m1.txMem = (0x20 ||| ucRegister) :: pucValue ∧ m1.txMem.length = n + 1 ∧
        m1.rxMem.length = n + 1 ∧
        m1.dma0.src = some (Addr.txBuf 1) ∧ m1.dma0.dst = some Addr.spi1D ∧
        m1.dma0.count = n ∧
        m1.dma1.src = some Addr.spi1D ∧ m1.dma1.dst = some (Addr.rxBuf 0) ∧
        m1.dma1.count = n + 1 ∧
        dmaStream m1.txMem m1.dma0 = pucValue ∧
        (m.sReads ≠ [] → m1.dmaFrame = (0x20 ||| ucRegister) :: pucValue)) ∧
      (∀ (m : Machine) (s : Nat) (ss vs : List Nat),
        m.xCommTask = none → m.sReads = s :: ss →
        m.notifies = COMM_TASK_NOTIFICATION :: vs →
        (nRF24L01_vWriteAddressRegister b ucRegister pucValue n m).returned = true) := by
  have h1 : (n + 1) % UINT32 = n + 1 := Nat.mod_eq_of_lt (by unfold UINT32; omega)
  have h2 : (n + 1 + UINT32 - 1) % UINT32 = n := by
    unfold UINT32; omega
  have h3 : decide (n ≤ ADDR_40BIT_LEN) = true := by
    unfold ADDR_40BIT_LEN; simp; omega
  have heq : nRF24L01_vWriteAddressRegister b ucRegister pucValue n
      = SPI1_vTransmitDMA b ((0x20 ||| ucRegister) :: pucValue)
          (List.replicate (n + 1) 0) (n + 1) := by
    funext m
    simp only [nRF24L01_vWriteAddressRegister, h1, h2, h3, buildMessage_frame _ _ _ hlen,
      W_REGISTER_byte _ hreg]
    rfl
  refine ⟨heq, ?_, ?_⟩
  · intro m m1 hx hm
    rw [heq] at hm
    obtain ⟨k1, k2, k3, k4, k5, k6, k7, k8, k9⟩ :=
      SPI1_vTransmitDMA_buffers b ((0x20 ||| ucRegister) :: pucValue)
        (List.replicate (n + 1) 0) (n + 1) m hx
    rw [hm] at k1 k2 k3 k4 k5 k6 k7 k8 k9
    rw [h2] at k5
    have hstream : dmaStream m1.txMem m1.dma0 = pucValue := by
      rw [k1, dmaStream_tail _ _ _ k3 (by rw [k5, hlen])]
    refine ⟨k1, by rw [k1, List.length_cons, hlen], by rw [k2, List.length_replicate],
      k3, k4, k5, k6, k7, k8, hstream, ?_⟩
    intro hs
    unfold Machine.dmaFrame
    rw [hstream, k9 hs]
    rfl
  · intro m s ss vs hx hs hnote
    rw [heq, SPI1_vTransmitDMA_notified b _ _ _ m s ss vs hx hs hnote]
    rfl

/-- C2 at the pipe 0 receive address with five address bytes: a transfer that
is notified in time returns, the frame behind the transmit address and on the
bus is 2A 11 22 33 44 55, and the receive array has 6 bytes. -/
theorem nRF24L01_vWriteAddressRegister_frame_witness :
    (0x0A < 256 ∧ [0x11, 0x22, 0x33, 0x44, 0x55].length = 5 ∧ 5 ≤ 5) ∧
      nRF24L01_vWriteAddressRegister kl25 0x0A [0x11, 0x22, 0x33, 0x44, 0x55] 5
        = SPI1_vTransmitDMA kl25 [0x2A, 0x11, 0x22, 0x33, 0x44, 0x55] (List.replicate 6 0) 6 ∧
      (nRF24L01_vWriteAddressRegister kl25 0x0A [0x11, 0x22, 0x33, 0x44, 0x55] 5
        addressTransfer).returned = true ∧
      (nRF24L01_vWriteAddressRegister kl25 0x0A [0x11, 0x22, 0x33, 0x44, 0x55] 5
        addressTransfer).machine.txMem = [0x2A, 0x11, 0x22, 0x33, 0x44, 0x55] ∧
      (nRF24L01_vWriteAddressRegister kl25 0x0A [0x11, 0x22, 0x33, 0x44, 0x55] 5
        addressTransfer).machine.rxMem.length = 6 ∧
      (nRF24L01_vWriteAddressRegister kl25 0x0A [0x11, 0x22, 0x33, 0x44, 0x55] 5
        addressTransfer).machine.dmaFrame = [0x2A, 0x11, 0x22, 0x33, 0x44, 0x55] := by
  have h := nRF24L01_vWriteAddressRegister_frame kl25 0x0A [0x11, 0x22, 0x33, 0x44, 0x55] 5
    (by decide) rfl (by decide)
  have hm := h.2.1 addressTransfer _ rfl rfl
  exact ⟨⟨by decide, rfl, by decide⟩, h.1, h.2.2 addressTransfer 0x20 [] [] rfl rfl rfl,
    hm.1, hm.2.2.1, hm.2.2.2.2.2.2.2.2.2.2 (by decide)⟩

/-! ### C3 -/

/-- C3: for all 8-bit reg and value, `nRF24L01_vWriteRegister` is one
`SPI1_vTransmitPolling` transaction of length 2 with the transmit bytes
(0x20 | reg) mod 256 and value: a run that returns has one chip-select bracket
holding exactly these two byte exchanges, and the run returns when the
hardware answers. -/
theorem nRF24L01_vWriteRegister_transaction (b : Board) (ucRegister ucValue : Nat)
    (m : Machine) (hreg : ucRegister < 256) (hval : ucValue < 256) :
    nRF24L01_vWriteRegister b ucRegister ucValue m
        = (SPI1_vTransmitPolling b [(0x20 ||| ucRegister) % 256, ucValue]
            (List.replicate 32 0) 2 m).andThen (fun _ m1 => Outcome.ret () m1) ∧
    ((∃ m1, nRF24L01_vWriteRegister b ucRegister ucValue m = Outcome.blocked m1) ∨
      (∃ m1 r0 r1, nRF24L01_vWriteRegister b ucRegister ucValue m = Outcome.ret () m1 ∧
        busTrace (m.since m1)
          = [Event.ss false, Event.spiDWrite ((0x20 ||| ucRegister) % 256), Event.spiDRead r0,
             Event.spiDWrite ucValue, Event.spiDRead r1, Event.ss true])) ∧
    (m.spiReady b → 4 ≤ m.sReads.length → 2 ≤ m.dReads.length →
      (∃ v ∈ m.cntReads, (b.TIME_PER_BYTE * 2) % UINT32 ≤ v) →
      ∃ m1, nRF24L01_vWriteRegister b ucRegister ucValue m = Outcome.ret () m1) := by
  have heq : nRF24L01_vWriteRegister b ucRegister ucValue m
      = (SPI1_vTransmitPolling b [(0x20 ||| ucRegister) % 256, ucValue]
          (List.replicate 32 0) 2 m).andThen (fun _ m1 => Outcome.ret () m1) := by
    simp only [nRF24L01_vWriteRegister, bind_apply, W_REGISTER, MAX_PAYLOAD_LEN,
      Nat.mod_eq_of_lt hval]
    rfl
  refine ⟨heq, ?_, ?_⟩
  · obtain ⟨m1, δ, reads, _, _, _, h⟩ :=
      SPI1_vTransmitPolling_shape b [(0x20 ||| ucRegister) % 256, ucValue]
        (List.replicate 32 0) 2 m (by simp) (by simp)
    rcases h with ⟨h, _⟩ | ⟨rs, v, h, hl, hb, _, _, hlog⟩
    · exact Or.inl ⟨m1, by rw [heq, h]; rfl⟩
    · right
      obtain ⟨r0, r1, rfl⟩ : ∃ r0 r1, rs = [r0, r1] := by
        match rs, hl with
        | [r0, r1], _ => exact ⟨r0, r1, rfl⟩
      refine ⟨m1, r0, r1, by rw [heq, h]; rfl, ?_⟩
      rw [since_polling m m1 δ reads v hlog, busTrace_polling δ reads v, hb]
      rfl
  · intro hr hs hd hc
    obtain ⟨rx1, m1, h⟩ := SPI1_vTransmitPolling_returns b
      [(0x20 ||| ucRegister) % 256, ucValue] (List.replicate 32 0) 2 m hr (by omega) hd hc
    exact ⟨m1, by rw [heq, h]; rfl⟩

/-- C3, the scenario of the specification: `WriteRegister(0x05, 50)` returns
after one chip-select bracket with the bytes 0x25 and 0x32 written. -/
theorem nRF24L01_vWriteRegister_transaction_witness :
    (0x05 < 256 ∧ 50 < 256) ∧
    ∃ m1 r0 r1, nRF24L01_vWriteRegister kl25 0x05 50 answering = Outcome.ret () m1 ∧
      busTrace (answering.since m1)
        = [Event.ss false, Event.spiDWrite 0x25, Event.spiDRead r0,
           Event.spiDWrite 0x32, Event.spiDRead r1, Event.ss true] := by
  have h := nRF24L01_vWriteRegister_transaction kl25 0x05 50 answering (by decide) (by decide)
  obtain ⟨m1, hret⟩ := h.2.2 (by decide) (by decide) (by decide)
    ⟨200, by decide, by decide⟩
  refine ⟨⟨by decide, by decide⟩, ?_⟩
  rcases h.2.1 with ⟨m2, hb⟩ | ⟨m2, r0, r1, h2, h3⟩
  · rw [hret] at hb; cases hb
  · exact ⟨m2, r0, r1, h2, h3⟩

/-! ### C4 -/

/-- C4: in every state whose pending-owner slot is non-empty, and so in every
state in which an earlier `SPI1_vTransmitDMA` is still waiting for its
completion, `SPI1_vTransmitDMA` stops at the assertion with the machine exactly
as it found it: slot, timer, DMA channels, data register, chip-select and log
are unchanged. -/
theorem SPI1_vTransmitDMA_rejects_pending (b : Board) (tx rx : List Nat) (L : Nat)
    (m : Machine)
    (h : m.xCommTask ≠ none ∨
      ∃ tx0 rx0 L0 m0, SPI1_vTransmitDMA b tx0 rx0 L0 m0 = Outcome.blocked m) :
    SPI1_vTransmitDMA b tx rx L m = Outcome.halt m := by
  rcases h with h | ⟨tx0, rx0, L0, m0, h⟩
  · exact SPI1_vTransmitDMA_busy b tx rx L m h
  · exact SPI1_vTransmitDMA_busy b tx rx L m (SPI1_vTransmitDMA_blocked_owner b tx0 rx0 L0 m0 m h)

/-- C4 on two back-to-back calls: the first is left waiting for its
notification, the second stops at the assertion and changes nothing. -/
theorem SPI1_vTransmitDMA_rejects_pending_witness :
    SPI1_vTransmitDMA kl25 [0xA0, 0x50] [0, 0] 2 { idle with sReads := [0x20] }
        = Outcome.blocked pending ∧
      pending.xCommTask = some 7 ∧
      SPI1_vTransmitDMA kl25 [0x2A, 0x11] [0, 0] 2 pending = Outcome.halt pending :=
  have h1 : SPI1_vTransmitDMA kl25 [0xA0, 0x50] [0, 0] 2 { idle with sReads := [0x20] }
      = Outcome.blocked pending := by decide!
  ⟨h1, by decide!,
    SPI1_vTransmitDMA_rejects_pending kl25 [0x2A, 0x11] [0, 0] 2 pending
      (Or.inr ⟨_, _, _, _, h1⟩)⟩

/-! ### C5 -/

/-- C5 at a transfer of the frame A0 50 49 4E 47 that is notified in time: the
call returns right after clearing the done flag of channel 1, chip-select is
still low and was never driven high. -/
theorem SPI1_vTransmitDMA_returns_select_low :
    pingTransfer.returned = true ∧ pingTransfer.machine.ssHigh = false ∧
      Event.ss true ∉ pingTransfer.machine.log ∧
      busTrace pingTransfer.machine.log = [Event.ss false, Event.spiDWrite 0xA0] ∧
      pingTransfer.machine.log.getLast? = some (Event.dmaDoneClear DMA_CHANNEL1) := by
  decide!

/-! ### C6 -/

/-- C6: for every length L and buffers of that length, a run of
`SPI1_vTransmitPolling` that returns has driven chip-select low, then for each
index in order written the transmit byte to the data register and read the
byte stored in the same slot of the receive buffer, then driven chip-select
high; all L slots are filled. A run that has not returned is still waiting for
the hardware, and it returns when every status poll finds the flags set and
the counter reaches the threshold. -/
theorem SPI1_vTransmitPolling_trace (b : Board) (tx rx : List Nat) (L : Nat) (m : Machine)
    (htx : tx.length = L) (hrx : rx.length = L) :
    ((∃ m1, SPI1_vTransmitPolling b tx rx L m = Outcome.blocked m1 ∧
        (busTrace (m.since m1)).head? = some (Event.ss false) ∧
        Event.ss true ∉ m.since m1) ∨
      (∃ rx1 m1, SPI1_vTransmitPolling b tx rx L m = Outcome.ret rx1 m1 ∧ rx1.length = L ∧
        busTrace (m.since m1) = Event.ss false :: exchange tx rx1 ++ [Event.ss true])) ∧
    (m.spiReady b → 2 * L ≤ m.sReads.length → L ≤ m.dReads.length →
      (∃ v ∈ m.cntReads, (b.TIME_PER_BYTE * L) % UINT32 ≤ v) →
      ∃ rx1 m1, SPI1_vTransmitPolling b tx rx L m = Outcome.ret rx1 m1) := by
  refine ⟨?_, SPI1_vTransmitPolling_returns b tx rx L m⟩
  obtain ⟨m1, δ, reads, hspi, _, _, h⟩ :=
    SPI1_vTransmitPolling_shape b tx rx L m (by omega) (by omega)
  rcases h with ⟨h, hlog⟩ | ⟨rs, v, h, hl, hb, _, _, hlog⟩
  · left
    have hs : m.since m1 = [Event.tpm2Toie false, Event.tpm2CntWrite 0, Event.tpm2Start,
        Event.ss false] ++ δ ++ reads.map Event.tpm2CntRead :=
      since_of_log m m1 _ (by rw [hlog]; simp only [List.append_assoc])
    refine ⟨m1, h, ?_, ?_⟩
    · rw [hs]
      simp only [busTrace_append, busTrace_cntReads, List.append_nil]
      rfl
    · rw [hs]
      intro hmem
      simp only [List.mem_append, List.mem_cons, List.mem_singleton, List.mem_map,
        List.not_mem_nil, or_false] at hmem
      rcases hmem with (hmem | hmem) | hmem
      · rcases hmem with hmem | hmem | hmem | hmem <;> cases hmem
      · have := hspi _ hmem
        simp [Event.isSpi] at this
      · obtain ⟨_, _, hmem⟩ := hmem
        cases hmem
  · right
    have hdrop : rx.drop L = [] := List.drop_eq_nil_of_le (by omega)
    have htake : tx.take L = tx := List.take_of_length_le (by omega)
    rw [hdrop, List.append_nil] at h
    refine ⟨rs, m1, h, hl, ?_⟩
    rw [since_polling m m1 δ reads v hlog, ← htake, ← hb]
    exact busTrace_polling δ reads v

/-- C6 on a two-byte exchange with an environment that answers every poll: the
run returns and its bus trace is the bracketed pair of exchanges. -/
theorem SPI1_vTransmitPolling_trace_witness :
    ∃ rx1 m1, SPI1_vTransmitPolling kl25 [0x25, 0x32] [0, 0] 2 answering = Outcome.ret rx1 m1 ∧
      rx1.length = 2 ∧
      busTrace (answering.since m1)
        = Event.ss false :: exchange [0x25, 0x32] rx1 ++ [Event.ss true] := by
  have h := SPI1_vTransmitPolling_trace kl25 [0x25, 0x32] [0, 0] 2 answering rfl rfl
  obtain ⟨rx1, m1, hret⟩ := h.2 (by decide) (by decide) (by decide)
    ⟨200, by decide, by decide⟩
  rcases h.1 with ⟨m2, hb, _⟩ | ⟨rx2, m2, h2, h3, h4⟩
  · rw [hret] at hb; cases hb
  · exact ⟨rx2, m2, h2, h3, h4⟩

/-! ### C7 -/

/-- C7: for every length L >= 1, `SPI1_vTransmitDMA` writes the first transmit
byte by hand to the data register, and this is its only write to that
register; it configures channel 0 with source transmit buffer + 1, destination
the data register and count L - 1, and channel 1 with source the data register,
destination the receive buffer and count L, each once. The hand-written byte
followed by the bytes channel 0 streams is the transmit buffer, each byte once
and in order, and channel 1 fills the slots 0 to L - 1 of the receive buffer. -/
theorem SPI1_vTransmitDMA_channels (b : Board) (tx rx : List Nat) (L : Nat) (m : Machine)
    (s : Nat) (ss : List Nat) (hL : 1 ≤ L) (h32 : L < UINT32) (htx : tx.length = L)
    (hx : m.xCommTask = none) (hs : m.sReads = s :: ss) :
    (∃ rest : List Event,
      m.since (SPI1_vTransmitDMA b tx rx L m).machine
        = [Event.tpm2Load L,
           Event.dmaInit DMA_CHANNEL0 (Addr.txBuf 1) Addr.spi1D (L - 1),
           Event.dmaInit DMA_CHANNEL1 Addr.spi1D (Addr.rxBuf 0) L,
           Event.ss false, Event.tpm2CntWrite 0, Event.tpm2Start, Event.spiSRead s,
           Event.spiDWrite (tx.getD 0 0), Event.spiTxDmae true, Event.spiRxDmae true,
           Event.dmaStart DMA_CHANNEL0] ++ rest ∧
      busTrace rest = [] ∧
      ∀ e ∈ rest, ∀ ch src dst n, e ≠ Event.dmaInit ch src dst n) ∧
    (SPI1_vTransmitDMA b tx rx L m).machine.dma0.src = some (Addr.txBuf 1) ∧
    (SPI1_vTransmitDMA b tx rx L m).machine.dma0.dst = some Addr.spi1D ∧
    (SPI1_vTransmitDMA b tx rx L m).machine.dma0.count = L - 1 ∧
    (SPI1_vTransmitDMA b tx rx L m).machine.dma1.src = some Addr.spi1D ∧
    (SPI1_vTransmitDMA b tx rx L m).machine.dma1.dst = some (Addr.rxBuf 0) ∧
    (SPI1_vTransmitDMA b tx rx L m).machine.dma1.count = L ∧
    tx.getD 0 0 :: dmaStream tx (SPI1_vTransmitDMA b tx rx L m).machine.dma0 = tx ∧
    dmaSlots (SPI1_vTransmitDMA b tx rx L m).machine.dma1 = List.range L := by
  have hc : (L + UINT32 - 1) % UINT32 = L - 1 := by
    unfold UINT32 at h32 ⊢; omega
  have key : (∃ rest : List Event,
      m.since (SPI1_vTransmitDMA b tx rx L m).machine
        = [Event.tpm2Load L,
           Event.dmaInit DMA_CHANNEL0 (Addr.txBuf 1) Addr.spi1D (L - 1),
           Event.dmaInit DMA_CHANNEL1 Addr.spi1D (Addr.rxBuf 0) L,
           Event.ss false, Event.tpm2CntWrite 0, Event.tpm2Start, Event.spiSRead s,
           Event.spiDWrite (tx.getD 0 0), Event.spiTxDmae true, Event.spiRxDmae true,
           Event.dmaStart DMA_CHANNEL0] ++ rest ∧
      busTrace rest = [] ∧
      ∀ e ∈ rest, ∀ ch src dst n, e ≠ Event.dmaInit ch src dst n) ∧
    (SPI1_vTransmitDMA b tx rx L m).machine.dma0.src = some (Addr.txBuf 1) ∧
    (SPI1_vTransmitDMA b tx rx L m).machine.dma0.dst = some Addr.spi1D ∧
    (SPI1_vTransmitDMA b tx rx L m).machine.dma0.count = L - 1 ∧
    (SPI1_vTransmitDMA b tx rx L m).machine.dma1.src = some Addr.spi1D ∧
    (SPI1_vTransmitDMA b tx rx L m).machine.dma1.dst = some (Addr.rxBuf 0) ∧
    (SPI1_vTransmitDMA b tx rx L m).machine.dma1.count = L := by
    cases hn : m.notifies with
    | nil =>
      rw [SPI1_vTransmitDMA_waiting b tx rx L m s ss hx hs hn]
      refine ⟨⟨[], ?_, rfl, by simp⟩, rfl, rfl, hc, rfl, rfl, rfl⟩
      simp [Machine.since, Outcome.machine, hc]
    | cons v vs =>
      by_cases hv : v = COMM_TASK_NOTIFICATION
      · subst hv
        rw [SPI1_vTransmitDMA_notified b tx rx L m s ss vs hx hs hn]
        refine ⟨⟨[Event.notifyTake COMM_TASK_NOTIFICATION b.xMaxBlockTime COMM_TASK_NOTIFICATION,
            Event.spiTxDmae false, Event.spiRxDmae false, Event.dmaStop DMA_CHANNEL0,
            Event.dmaDoneClear DMA_CHANNEL0, Event.dmaDoneClear DMA_CHANNEL1], ?_, rfl,
          by simp⟩, rfl, rfl, hc, rfl, rfl, rfl⟩
        simp [Machine.since, Outcome.machine, hc]
      · rw [SPI1_vTransmitDMA_timeout b tx rx L m s v ss vs hx hs hn hv]
        refine ⟨⟨[Event.notifyTake COMM_TASK_NOTIFICATION b.xMaxBlockTime v], ?_, rfl,
          by simp⟩, rfl, rfl, hc, rfl, rfl, rfl⟩
        simp [Machine.since, Outcome.machine, hc]
  obtain ⟨h0, h1, h2, h3, h4, h5, h6⟩ := key
  exact ⟨h0, h1, h2, h3, h4, h5, h6, dmaStream_rest tx L _ hL htx h1 h3,
    dmaSlots_all L _ h5 h6⟩

/-- C7 on the frame A0 50 49 4E 47: the byte A0 is written by hand, channel 0
streams the four bytes after it and channel 1 fills five slots. -/
theorem SPI1_vTransmitDMA_channels_witness :
    (1 ≤ 5 ∧ 5 < UINT32 ∧ [0xA0, 0x50, 0x49, 0x4E, 0x47].length = 5) ∧
    pingTransfer.machine.dma0.count = 4 ∧ pingTransfer.machine.dma1.count = 5 ∧
    0xA0 :: dmaStream [0xA0, 0x50, 0x49, 0x4E, 0x47] pingTransfer.machine.dma0
      = [0xA0, 0x50, 0x49, 0x4E, 0x47] ∧
    dmaSlots pingTransfer.machine.dma1 = [0, 1, 2, 3, 4] :=
  have h := SPI1_vTransmitDMA_channels kl25 [0xA0, 0x50, 0x49, 0x4E, 0x47]
    (List.replicate 5 0) 5 { idle with sReads := [0x20], notifies := [1] } 0x20 []
    (by decide) (by decide) rfl rfl rfl
  ⟨⟨by decide, by decide, rfl⟩, h.2.2.2.1, h.2.2.2.2.2.2.1, h.2.2.2.2.2.2.2.1,
    h.2.2.2.2.2.2.2.2⟩

/-! ### C8 -/

/-- C8: in the pulse of `nRF24L01_vStartTransmission`, for every sequence of
values the reads of the timer counter return, the counter is reset to 0,
chip-enable is driven high before the timer is started, and chip-enable is
driven low only right after the first read that returned a value of at least
`TEN_MICROSECONDS`, all earlier reads having been below it; while every read is
below the minimum the run is still spinning and chip-enable has not been
cleared. -/
theorem nRF24L01_vStartTransmission_pulse (b : Board) (m : Machine) :
    (∃ m1, nRF24L01_vStartTransmission b m = Outcome.blocked m1 ∧
        (∀ x ∈ m.cntReads, x < b.TEN_MICROSECONDS) ∧
        m.since m1 = [Event.tpm2Toie false, Event.tpm2CntWrite 0, Event.ce true,
            Event.tpm2Start] ++ m.cntReads.map Event.tpm2CntRead ∧
        Event.ce false ∉ m.since m1) ∨
    (∃ m1 pre v post, nRF24L01_vStartTransmission b m = Outcome.ret () m1 ∧
        m.cntReads = pre ++ v :: post ∧ (∀ x ∈ pre, x < b.TEN_MICROSECONDS) ∧
        b.TEN_MICROSECONDS ≤ v ∧
        m.since m1 = [Event.tpm2Toie false, Event.tpm2CntWrite 0, Event.ce true,
            Event.tpm2Start] ++ pre.map Event.tpm2CntRead ++
          [Event.tpm2CntRead v, Event.tpm2Stop, Event.ce false, Event.tpm2Toie true,
            Event.tpm2CntWrite 0]) := by
  rw [nRF24L01_vStartTransmission_eq]
  rcases tpm2WaitCnt_shape b.TEN_MICROSECONDS m.cntReads.length
      { m with tpm2 := { m.tpm2 with cnt := 0, running := true, toie := false },
               ceHigh := true,
               log := m.log ++ [Event.tpm2Toie false, Event.tpm2CntWrite 0, Event.ce true,
                 Event.tpm2Start] } rfl with
    ⟨m2, h3, h4, h5⟩ | ⟨m2, pre, v, post, h3, h4, h5, h6, h7, _⟩
  · left
    have hs : m.since m2 = [Event.tpm2Toie false, Event.tpm2CntWrite 0, Event.ce true,
        Event.tpm2Start] ++ m.cntReads.map Event.tpm2CntRead :=
      since_of_log m m2 _ (by rw [h4]; simp only [List.append_assoc])
    refine ⟨m2, by rw [h3]; rfl, h5, hs, ?_⟩
    rw [hs]
    simp
  · right
    refine ⟨_, pre, v, post, by rw [h3]; rfl, h7, h5, h6, ?_⟩
    exact since_of_log _ _ _ (by simp [h4])

/-! ### C9 -/

/-- C9 (as amended): for every length L with `TIME_PER_BYTE * L` below 2^32,
`SPI1_vTransmitPolling` resets the counter to 0 and starts the timer before
asserting chip-select, and it stops the timer, deasserts chip-select and
returns only right after a read of the counter that returned a value of at
least `TIME_PER_BYTE * L`; until then neither the timer is stopped nor
chip-select driven high. -/
theorem SPI1_vTransmitPolling_min_duration (b : Board) (tx rx : List Nat) (L : Nat)
    (m : Machine) (htx : L ≤ tx.length) (hrx : L ≤ rx.length)
    (hfit : b.TIME_PER_BYTE * L < UINT32) :
    ∃ (m1 : Machine) (δ : List Event),
      (Event.tpm2Stop ∉ δ ∧ Event.ss true ∉ δ) ∧
      ((SPI1_vTransmitPolling b tx rx L m = Outcome.blocked m1 ∧
          m.since m1 = [Event.tpm2Toie false, Event.tpm2CntWrite 0, Event.tpm2Start,
            Event.ss false] ++ δ) ∨
       (∃ (rx1 : List Nat) (v : Nat),
          SPI1_vTransmitPolling b tx rx L m = Outcome.ret rx1 m1 ∧
          b.TIME_PER_BYTE * L ≤ v ∧
          m.since m1 = [Event.tpm2Toie false, Event.tpm2CntWrite 0, Event.tpm2Start,
            Event.ss false] ++ δ ++
            [Event.tpm2CntRead v, Event.tpm2Stop, Event.ss true, Event.tpm2Toie true])) := by
  obtain ⟨m1, δ, reads, hs, _, _, h⟩ := SPI1_vTransmitPolling_shape b tx rx L m htx hrx
  have hmod : (b.TIME_PER_BYTE * L) % UINT32 = b.TIME_PER_BYTE * L := Nat.mod_eq_of_lt hfit
  have hno : Event.tpm2Stop ∉ δ ++ reads.map Event.tpm2CntRead ∧
      Event.ss true ∉ δ ++ reads.map Event.tpm2CntRead := by
    constructor <;>
    · intro hmem
      rcases List.mem_append.mp hmem with hmem | hmem
      · have := hs _ hmem
        simp [Event.isSpi] at this
      · simp at hmem
  refine ⟨m1, δ ++ reads.map Event.tpm2CntRead, hno, ?_⟩
  rcases h with ⟨h, hlog⟩ | ⟨rs, v, h, _, _, hv, _, hlog⟩
  · exact Or.inl ⟨h, since_of_log _ _ _ (by rw [hlog]; simp only [List.append_assoc])⟩
  · refine Or.inr ⟨_, v, h, by rw [← hmod]; exact hv, ?_⟩
    exact since_of_log _ _ _ (by rw [hlog]; simp only [List.append_assoc])

/-- C9 (as amended) on a two-byte exchange with an environment that answers
every poll: the threshold is 192 ticks, and the run returns right after a
counter read of at least 192. -/
theorem SPI1_vTransmitPolling_min_duration_witness :
    (2 ≤ [0x25, 0x32].length ∧ 2 ≤ [0, 0].length ∧ kl25.TIME_PER_BYTE * 2 < UINT32) ∧
    ∃ (m1 : Machine) (δ : List Event) (rx1 : List Nat) (v : Nat),
      (Event.tpm2Stop ∉ δ ∧ Event.ss true ∉ δ) ∧
      SPI1_vTransmitPolling kl25 [0x25, 0x32] [0, 0] 2 answering = Outcome.ret rx1 m1 ∧
      192 ≤ v ∧
      answering.since m1 = [Event.tpm2Toie false, Event.tpm2CntWrite 0, Event.tpm2Start,
        Event.ss false] ++ δ ++
        [Event.tpm2CntRead v, Event.tpm2Stop, Event.ss true, Event.tpm2Toie true] := by
  refine ⟨⟨by decide, by decide, by decide⟩, ?_⟩
  obtain ⟨m1, δ, hno, h⟩ := SPI1_vTransmitPolling_min_duration kl25 [0x25, 0x32] [0, 0] 2
    answering (by decide) (by decide) (by decide)
  obtain ⟨rx0, m0, hret⟩ := SPI1_vTransmitPolling_returns kl25 [0x25, 0x32] [0, 0] 2 answering
    (by decide) (by decide) (by decide) ⟨200, by decide, by decide⟩
  rcases h with ⟨hb, _⟩ | ⟨rx1, v, h1, h2, h3⟩
  · rw [hret] at hb; cases hb
  · exact ⟨m1, δ, rx1, v, hno, h1, h2, h3⟩

/-- C9 as stated fails at the length 44739243 with 96 ticks per byte: the
product is 2^32 + 32 and wraps to 32, so the call stops the timer, drives
chip-select high and returns after a single read of the counter that returned
32, far below `TIME_PER_BYTE * L`. -/
theorem SPI1_vTransmitPolling_threshold_wraps :
    ∃ (rx1 : List Nat) (m1 : Machine),
      SPI1_vTransmitPolling kl25 (List.replicate wrapLength 0) (List.replicate wrapLength 0)
        wrapLength wrapMachine = Outcome.ret rx1 m1 ∧
      Event.ss true ∈ wrapMachine.since m1 ∧
      ∀ v, Event.tpm2CntRead v ∈ wrapMachine.since m1 → v < kl25.TIME_PER_BYTE * wrapLength := by
  obtain ⟨rx1, m1, h1, h2, h3⟩ := SPI1_vTransmitPolling_single_read kl25
    (List.replicate wrapLength 0) (List.replicate wrapLength 0) wrapLength 32 wrapMachine
    (by rw [List.length_replicate]) (by rw [List.length_replicate])
    (by
      intro v hv
      have hv1 : v ∈ List.replicate (2 * wrapLength) 0xA0 := hv
      rw [List.eq_of_mem_replicate hv1]
      decide)
    (by
      show 2 * wrapLength ≤ (List.replicate (2 * wrapLength) 0xA0).length
      rw [List.length_replicate])
    (by
      show wrapLength ≤ (List.replicate wrapLength 0).length
      rw [List.length_replicate])
    rfl (by decide)
  refine ⟨rx1, m1, h1, h2, ?_⟩
  intro v hv
  rw [h3 v hv]
  decide

/-! ### C10 -/

/-- C10 at the length 2^32 - 1: the incremented length wraps to 0, the
assertion passes, and the call performs the polling write of the payload width
register (bytes 0x31 and 0x00) instead of stopping. -/
theorem nRF24L01_vSendPayload_max_length_passes :
    maxLengthSend.halted = false ∧
      busTrace maxLengthSend.machine.log
        = [Event.ss false, Event.spiDWrite 0x31, Event.spiDRead 0, Event.spiDWrite 0x00,
           Event.spiDRead 0, Event.ss true] := by
  decide!

/-! ### C11 -/

/-- C11 (as amended): `nRF24L01_vWriteAddressRegister` enforces the
precondition length <= 6, the value of `ADDR_40BIT_LEN`: for every length
greater than 6 it stops at the assertion with the machine untouched, before a
frame is built or a DMA transaction started, and for every length up to 6 the
assertion passes and the frame goes to `SPI1_vTransmitDMA`. -/
theorem nRF24L01_vWriteAddressRegister_guard (b : Board) (ucRegister : Nat)
    (pucValue : List Nat) (n : Nat) (m : Machine) :
    (6 < n → nRF24L01_vWriteAddressRegister b ucRegister pucValue n m = Outcome.halt m) ∧
    (n ≤ 6 → pucValue.length = n →
      nRF24L01_vWriteAddressRegister b ucRegister pucValue n m
        = SPI1_vTransmitDMA b (((0x20 ||| ucRegister) % 256) :: pucValue)
            (List.replicate (n + 1) 0) (n + 1) m) := by
  constructor
  · intro h
    have h3 : decide (n ≤ ADDR_40BIT_LEN) = false := by
      unfold ADDR_40BIT_LEN; simp; omega
    simp [nRF24L01_vWriteAddressRegister, h3, configASSERT]
  · intro h hlen
    have h1 : (n + 1) % UINT32 = n + 1 := Nat.mod_eq_of_lt (by unfold UINT32; omega)
    have h2 : (n + 1 + UINT32 - 1) % UINT32 = n := by
      unfold UINT32; omega
    have h3 : decide (n ≤ ADDR_40BIT_LEN) = true := by
      unfold ADDR_40BIT_LEN; simp; omega
    simp only [nRF24L01_vWriteAddressRegister, h1, h2, h3, buildMessage_frame _ _ _ hlen,
      W_REGISTER]
    rfl

/-- C11 (as amended) at the lengths 7 and 6: seven bytes stop at the assertion,
six bytes pass it. -/
theorem nRF24L01_vWriteAddressRegister_guard_witness :
    (6 < 7 ∧
      nRF24L01_vWriteAddressRegister kl25 0x0A [0x11, 0x22, 0x33, 0x44, 0x55, 0x00, 0x00] 7 idle
        = Outcome.halt idle) ∧
    (6 ≤ 6 ∧ [0x11, 0x22, 0x33, 0x44, 0x55, 0x00].length = 6 ∧
      nRF24L01_vWriteAddressRegister kl25 0x0A [0x11, 0x22, 0x33, 0x44, 0x55, 0x00] 6 idle
        = SPI1_vTransmitDMA kl25 [0x2A, 0x11, 0x22, 0x33, 0x44, 0x55, 0x00]
            (List.replicate 7 0) 7 idle) :=
  ⟨⟨by decide,
      (nRF24L01_vWriteAddressRegister_guard kl25 0x0A
        [0x11, 0x22, 0x33, 0x44, 0x55, 0x00, 0x00] 7 idle).1 (by decide)⟩,
    ⟨by decide, rfl,
      (nRF24L01_vWriteAddressRegister_guard kl25 0x0A
        [0x11, 0x22, 0x33, 0x44, 0x55, 0x00] 6 idle).2 (by decide) rfl⟩⟩

/-- C11 as stated fails at the length 6, the length `nRF24L01_vInit` itself
passes: the assertion lets it through, both DMA channels are programmed for the
seven-byte frame and the call returns. -/
theorem nRF24L01_vWriteAddressRegister_accepts_six :
    sixByteAddress.returned = true ∧ sixByteAddress.halted = false ∧
      sixByteAddress.machine.dma0.count = 6 ∧ sixByteAddress.machine.dma1.count = 7 ∧
      busTrace sixByteAddress.machine.log = [Event.ss false, Event.spiDWrite 0x2A] := by
  decide!

/-! ### C12 -/

/-- C12: for every payload length n accepted by the precondition (n <= 30), one
call of `nRF24L01_vSendPayload` is, in this order and with nothing else, the
register write to RX_PW_P0, the command FLUSH_TX, the status-flag reset, one
`SPI1_vTransmitDMA` of the frame 0xA0 followed by the payload, and one
chip-enable pulse. A run that returns shows exactly this on the hardware: the
polling frames 0x31 n+1, 0xE1 and 0x27 0x70, each in its own chip-select
bracket, then both DMA channels programmed once and the byte 0xA0 written by
hand, then chip-enable high and low once. The run returns when the hardware
answers every poll, the counter reaches each threshold and the notification
arrives. -/
theorem nRF24L01_vSendPayload_sequence (b : Board) (pucPayload : List Nat) (n : Nat)
    (m : Machine) (hlen : pucPayload.length = n) (hn : n ≤ 30) :
    nRF24L01_vSendPayload b pucPayload n m
      = (nRF24L01_vWriteRegister b RX_PW_P0 (n + 1) m).andThen (fun _ m1 =>
        (nRF24L01_vSendCommand b FLUSH_TX m1).andThen (fun _ m2 =>
        (nRF24L01_vResetStatusFlags b m2).andThen (fun _ m3 =>
        (SPI1_vTransmitDMA b (0xA0 :: pucPayload) (List.replicate (n + 1) 0)
          (n + 1) m3).andThen (fun _ m4 =>
        nRF24L01_vStartTransmission b m4)))) ∧
    (∀ m1, nRF24L01_vSendPayload b pucPayload n m = Outcome.ret () m1 →
      transportTrace (m.since m1)
        = [Event.ss false, Event.spiDWrite 0x31, Event.spiDWrite (n + 1), Event.ss true,
           Event.ss false, Event.spiDWrite 0xE1, Event.ss true,
           Event.ss false, Event.spiDWrite 0x27, Event.spiDWrite 0x70, Event.ss true,
           Event.dmaInit DMA_CHANNEL0 (Addr.txBuf 1) Addr.spi1D n,
           Event.dmaInit DMA_CHANNEL1 Addr.spi1D (Addr.rxBuf 0) (n + 1),
           Event.ss false, Event.spiDWrite 0xA0, Event.dmaStart DMA_CHANNEL0,
           Event.ce true, Event.ce false]) ∧
    (∀ (c1 c2 c3 : Nat) (cs ns : List Nat),
      m.xCommTask = none → m.spiReady b → 11 ≤ m.sReads.length → 5 ≤ m.dReads.length →
      m.cntReads = c1 :: c2 :: c3 :: cs →
      (b.TIME_PER_BYTE * 2) % UINT32 ≤ c1 → (b.TIME_PER_BYTE * 2) % UINT32 ≤ c2 →
      b.TEN_MICROSECONDS ≤ c3 → m.notifies = COMM_TASK_NOTIFICATION :: ns →
      ∃ m1, nRF24L01_vSendPayload b pucPayload n m = Outcome.ret () m1) := by
  have hframe : buildMessage pucPayload n 0 ((List.replicate (n + 1) 0).set 0 0xA0)
      = 0xA0 :: pucPayload := buildMessage_frame pucPayload n 0xA0 hlen
  refine ⟨?_, ?_, ?_⟩
  · rw [nRF24L01_vSendPayload_unfold b pucPayload n m hn, hframe]
  · intro m1 hret
    have := nRF24L01_vSendPayload_ret_trace b pucPayload n m m1 hn hret
    rw [hframe] at this
    exact this
  · intro c1 c2 c3 cs ns hx hr hs hd hc h1 h2 h3 hnot
    exact nRF24L01_vSendPayload_returns b pucPayload n m c1 c2 c3 cs ns hn hx hr hs hd hc
      h1 h2 h3 hnot

/-- C12 on "PING" with an environment that answers: the call returns and its
transport events are the three polling frames, the DMA transfer of five bytes
and the pulse, in this order. -/
theorem nRF24L01_vSendPayload_sequence_witness :
    ([0x50, 0x49, 0x4E, 0x47].length = 4 ∧ 4 ≤ 30) ∧
    ∃ m1, nRF24L01_vSendPayload kl25 [0x50, 0x49, 0x4E, 0x47] 4 answering = Outcome.ret () m1 ∧
      transportTrace (answering.since m1)
        = [Event.ss false, Event.spiDWrite 0x31, Event.spiDWrite 5, Event.ss true,
           Event.ss false, Event.spiDWrite 0xE1, Event.ss true,
           Event.ss false, Event.spiDWrite 0x27, Event.spiDWrite 0x70, Event.ss true,
           Event.dmaInit DMA_CHANNEL0 (Addr.txBuf 1) Addr.spi1D 4,
           Event.dmaInit DMA_CHANNEL1 Addr.spi1D (Addr.rxBuf 0) 5,
           Event.ss false, Event.spiDWrite 0xA0, Event.dmaStart DMA_CHANNEL0,
           Event.ce true, Event.ce false] := by
  have h := nRF24L01_vSendPayload_sequence kl25 [0x50, 0x49, 0x4E, 0x47] 4 answering rfl
    (by decide)
  obtain ⟨m1, hret⟩ := h.2.2 200 200 500 [] [] rfl (by decide) (by decide) (by decide) rfl
    (by decide) (by decide) (by decide) rfl
  exact ⟨⟨rfl, by decide⟩, m1, hret, h.2.1 m1 hret⟩

/-! ### C13 -/

/-- C13 at a run of `nRF24L01_vInit` that returns: the frame written to
SETUP_RETR is 0x24 0x13. The high nibble (ARD) is 1, the 500 microsecond delay
of the comment, but the low nibble (ARC) is 3 and not the 10 retries of the
comment, which would make the byte 0x1A. -/
theorem nRF24L01_vInit_setup_retr :
    initRun.returned = true ∧
      dataWrites initRun.machine.log
        = [0x25, 50, 0x2A, 0x30, 0x22, 0x01, 0x21, 0x01, 0x24, 0x13, 0x20, 0x0E] ∧
      SETUP_RETR_ARD 1 ||| SETUP_RETR_ARC 3 = 0x13 ∧
      (SETUP_RETR_ARD 1 ||| SETUP_RETR_ARC 3) / 16 = 1 ∧
      (SETUP_RETR_ARD 1 ||| SETUP_RETR_ARC 3) % 16 = 3 ∧
      SETUP_RETR_ARD 1 ||| SETUP_RETR_ARC 10 = 0x1A := by
  decide!

/-! ### C14 -/

/-- C14: for every payload length n accepted by `nRF24L01_vSendPayload`
(0 <= n <= 30) the value written to RX_PW_P0 is (n + 1) & 0x3F = n + 1, one
more than the number of payload bytes and never n: the call begins with the
register write of n + 1 to RX_PW_P0, and a run that returns has the bytes 0x31
and n + 1 in its first chip-select bracket. -/
theorem nRF24L01_vSendPayload_width (b : Board) (pucPayload : List Nat) (n : Nat)
    (m : Machine) (hn : n ≤ 30) :
    RX_PW_PX ((n + 1) % UINT32) = (n + 1) &&& 0x3F ∧
    (n + 1) &&& 0x3F = n + 1 ∧
    RX_PW_PX ((n + 1) % UINT32) ≠ n ∧
    nRF24L01_vSendPayload b pucPayload n m
      = (nRF24L01_vWriteRegister b RX_PW_P0 (n + 1) m).andThen (fun _ m1 =>
        (nRF24L01_vSendCommand b FLUSH_TX m1).andThen (fun _ m2 =>
        (nRF24L01_vResetStatusFlags b m2).andThen (fun _ m3 =>
        (SPI1_vTransmitDMA b
          (buildMessage pucPayload n 0 ((List.replicate (n + 1) 0).set 0 0xA0))
          (List.replicate (n + 1) 0) (n + 1) m3).andThen (fun _ m4 =>
        nRF24L01_vStartTransmission b m4)))) ∧
    (∀ m1, nRF24L01_vSendPayload b pucPayload n m = Outcome.ret () m1 →
      (transportTrace (m.since m1)).take 4
        = [Event.ss false, Event.spiDWrite 0x31, Event.spiDWrite (n + 1), Event.ss true]) := by
  have h1 : (n + 1) % UINT32 = n + 1 := Nat.mod_eq_of_lt (by unfold UINT32; omega)
  have hmask : (n + 1) &&& 0x3F = n + 1 := by
    interval_cases n <;> rfl
  have hw : RX_PW_PX (n + 1) = n + 1 := RX_PW_PX_width n hn
  refine ⟨by rw [h1, hw, hmask], hmask, by rw [h1, hw]; omega,
    nRF24L01_vSendPayload_unfold b pucPayload n m hn, ?_⟩
  intro m1 hret
  rw [nRF24L01_vSendPayload_ret_trace b pucPayload n m m1 hn hret]
  rfl

/-- C14 at the payload "PING": the width written is 5 for 4 payload bytes. -/
theorem nRF24L01_vSendPayload_width_witness :
    4 ≤ 30 ∧ RX_PW_PX ((4 + 1) % UINT32) = 5 ∧
    ∃ m1, nRF24L01_vSendPayload kl25 [0x50, 0x49, 0x4E, 0x47] 4 answering = Outcome.ret () m1 ∧
      (transportTrace (answering.since m1)).take 4
        = [Event.ss false, Event.spiDWrite 0x31, Event.spiDWrite 5, Event.ss true] := by
  have h := nRF24L01_vSendPayload_width kl25 [0x50, 0x49, 0x4E, 0x47] 4 answering (by decide)
  obtain ⟨m1, hret⟩ := nRF24L01_vSendPayload_returns kl25 [0x50, 0x49, 0x4E, 0x47] 4 answering
    200 200 500 [] [] (by decide) rfl (by decide) (by decide) (by decide) rfl
    (by decide) (by decide) (by decide) rfl
  exact ⟨by decide, by decide, m1, hret, h.2.2.2.2 m1 hret⟩

end Plantwatch
